import Mathlib

/-
Verification development for the AP2 annual-report scraper/extractor suite.

The Python sources are shallowly embedded below:
  * pure string/number manipulation is translated directly,
  * machine-external effects (Selenium, pdfplumber/PyMuPDF, HTTP calls to the
    LLM endpoint, the filesystem) are abstracted as function parameters whose
    results the surrounding control flow consumes,
  * Python `dict`s become association lists with in-place-replace insertion,
    Python exceptions become `Option`/`Except`.
-/

namespace AP2

/-! ## Python string primitives -/

/-- Non-breaking space, which `clean_number_string` strips explicitly. -/
def nbsp : Char := Char.ofNat 160

/-- The `{` character (spelled via its code point). -/
def openBrace : Char := Char.ofNat 123

/-- The `}` character (spelled via its code point). -/
def closeBrace : Char := Char.ofNat 125

/-- Characters treated as whitespace by Python `str.strip()` on the inputs
this code base handles (ASCII whitespace plus the non-breaking space). -/
def isPyWs (c : Char) : Bool :=
  c == ' ' || c == '\t' || c == '\n' || c == '\r' || c == nbsp

/-- Model of Python `str.strip()`: drop leading and trailing whitespace. -/
def pyStrip (s : String) : String :=
  String.mk (((s.data.dropWhile isPyWs).reverse.dropWhile isPyWs).reverse)

/-- Model of Python slicing `s[n:]` (character based, as in Python). -/
def pyDropChars (n : Nat) (s : String) : String :=
  String.mk (s.data.drop n)

/-- Model of Python `s.startswith(p)`. -/
def pyStartsWith (s p : String) : Bool :=
  p.data.isPrefixOf s.data

/-- Model of posix `os.path.basename`: the part after the last `/`
(the trailing run of non-`/` characters). -/
def pyBasename (s : String) : String :=
  String.mk ((s.data.reverse.takeWhile (fun c => c != '/')).reverse)

/-- Numeric value of a digit string (most significant digit first). -/
def digitsToNat (cs : List Char) : Nat :=
  cs.foldl (fun a c => a * 10 + (c.toNat - 48)) 0

/-- All characters are ASCII digits. -/
def allDigits (cs : List Char) : Bool := cs.all Char.isDigit

/-- Model of Python `float()` on an unsigned token: digits with at most one
`.`, at least one digit overall (`"5."` and `".5"` are accepted, `"."` and
`""` are rejected, as in Python). -/
def parseUnsignedFloat (cs : List Char) : Option ℚ :=
  let intPart := cs.takeWhile (fun c => c != '.')
  let rest := cs.dropWhile (fun c => c != '.')
  match rest with
  | [] =>
      if allDigits intPart && !intPart.isEmpty then
        some ((digitsToNat intPart : ℚ))
      else none
  | _ :: frac =>
      if allDigits intPart && allDigits frac && !frac.contains '.'
          && (!intPart.isEmpty || !frac.isEmpty) then
        some ((digitsToNat intPart : ℚ) + (digitsToNat frac : ℚ) / ((10 : ℚ) ^ frac.length))
      else none

/-- Model of Python `float()`: optional sign, then an unsigned float token.
Returns `none` where Python raises `ValueError`. -/
def pyFloat (s : String) : Option ℚ :=
  match s.data with
  | '-' :: r => (parseUnsignedFloat r).map (fun q => -q)
  | '+' :: r => parseUnsignedFloat r
  | r => parseUnsignedFloat r

/-- Model of Python `int()` on an unsigned token. -/
def parseUnsignedInt (cs : List Char) : Option Int :=
  if allDigits cs && !cs.isEmpty then some ((digitsToNat cs : Int)) else none

/-- Model of Python `int()`: optional sign then digits; `none` where Python
raises `ValueError`. -/
def pyInt (s : String) : Option Int :=
  match s.data with
  | '-' :: r => (parseUnsignedInt r).map (fun z => -z)
  | '+' :: r => parseUnsignedInt r
  | r => parseUnsignedInt r

/-- A Python number: either an `int` or a `float` (floats carried exactly as
rationals, which is faithful for the magnitudes this program handles). -/
inductive PyNum where
  | int : Int → PyNum
  | float : ℚ → PyNum
deriving DecidableEq, Repr

/-! ## `pdf_parser_enhanced.clean_number_string` -/

/-- `clean_number_string` from `pdf_parser_enhanced.py` (lines 60-93):
strip; reject `""` and `"-"`; optionally drop `%`; drop spaces, commas and
non-breaking spaces; then `float` if a decimal point is present or
`allow_decimal`/`is_percentage` is set, else `int`. -/
def clean_number_string (value : String) (allow_decimal is_percentage : Bool) :
    Option PyNum :=
  let v := pyStrip value
  if v == "" || v == "-" then none
  else
    let v := if is_percentage then pyStrip (String.mk (v.data.filter (fun c => c != '%'))) else v
    let cleaned := String.mk (v.data.filter (fun c => c != ' ' && c != ',' && c != nbsp))
    let hasDecimal := cleaned.data.contains '.'
    if hasDecimal || allow_decimal || is_percentage then
      (pyFloat cleaned).map PyNum.float
    else
      (pyInt cleaned).map PyNum.int

/-! ## `RobustPDFParser.clean_number_value` -/

/-- Characters kept by the filter `re.sub(r'[^\d.,\-–−()]', '', ...)` in
`clean_number_value`. -/
def numKeepChar (c : Char) : Bool :=
  c.isDigit || c == '.' || c == ',' || c == '-' || c == '–' || c == '−'
    || c == '(' || c == ')'

/-- `RobustPDFParser.clean_number_value` from `pdf_parser_new.py`
(lines 138-164): keep only number characters; if both `,` and `.` occur drop
the commas, else turn a lone `,` into `.`; unwrap `( … )` into a leading `-`;
normalise a leading en dash or minus sign to `-`; finally Python `float`. -/
def clean_number_value (value : String) : Option ℚ :=
  if value == "" then none
  else
    let kept := value.data.filter numKeepChar
    let kept :=
      if kept.contains ',' && kept.contains '.' then kept.filter (fun c => c != ',')
      else if kept.contains ',' then kept.map (fun c => if c == ',' then '.' else c)
      else kept
    let kept :=
      if kept.head? == some '(' && kept.getLast? == some ')' then
        '-' :: (kept.drop 1).dropLast
      else kept
    let kept :=
      match kept with
      | c :: rest => if c == '–' || c == '−' then '-' :: rest else c :: rest
      | [] => []
    pyFloat (String.mk kept)

/-! ## Association lists as Python dicts -/

/-- First-match lookup in an association list (Python `d[k]` / `k in d`). -/
def alookup {K V : Type} [DecidableEq K] : List (K × V) → K → Option V
  | [], _ => none
  | (k, v) :: rest, key => if key = k then some v else alookup rest key

/-- Python `d[k] = v`: replace the value in place if the key is present,
otherwise append the new binding (dicts preserve insertion order). -/
def dictInsert {K V : Type} [DecidableEq K] : List (K × V) → K → V → List (K × V)
  | [], k, v => [(k, v)]
  | (k', v') :: rest, k, v =>
      if k' = k then (k', v) :: rest else (k', v') :: dictInsert rest k v

/-! ## `config.py` -/

/-- `config.OUTPUT_HEADERS`: the fixed, ordered field-identifier row. -/
def OUTPUT_HEADERS : List String := [
  "Unnamed: 0",
  "AP2.FUNDCAPITALCARRIEDFORWARD.LEVEL.NONE.A.1@AP2",
  "AP2.NETOUTFLOWSTOTHENATIONALPENSIONSYSTEM.FLOW.NONE.A.1@AP2",
  "AP2.TOTAL.FLOW.NONE.A.1@AP2",
  "AP2.DOMESTICEQUITIES.ACTUALALLOCATION.STRATEGICPORTFOLIO.NONE.A.1@AP2",
  "AP2.DEVELOPEDEQUITIES.ACTUALALLOCATION.STRATEGICPORTFOLIO.NONE.A.1@AP2",
  "AP2.EMERGINGEQUITIES.ACTUALALLOCATION.STRATEGICPORTFOLIO.NONE.A.1@AP2",
  "AP2.DOMESTICEQUITIES.ACTUALALLOCATION.NONE.A.1@AP2",
  "AP2.DEVELOPEDEQUITIES.ACTUALALLOCATION.NONE.A.1@AP2",
  "AP2.EMEQUITIES.ACTUALALLOCATION.NONE.A.1@AP2",
  "AP2.EQUITIES.ACTUALALLOCATION.STRATEGICPORTFOLIO.NONE.A.1@AP2",
  "AP2.PRIVATEEQUITY.ACTUALALLOCATION.STRATEGICPORTFOLIO.NONE.A.1@AP2",
  "AP2.REALASSETS.ACTUALALLOCATION.STRATEGICPORTFOLIO.NONE.A.1@AP2",
  "AP2.FIXEDINCSECURITIES.ACTUALALLOCATION.STRATEGICPORTFOLIO.NONE.A.1@AP2",
  "AP2.GOVBONDSDEVMARKETS.ACTUALALLOCATION.STRATEGICPORTFOLIO.NONE.A.1@AP2",
  "AP2.CREDITBONDSDEVMARKETS.ACTUALALLOCATION.STRATEGICPORTFOLIO.NONE.A.1@AP2",
  "AP2.BONDSEMMARKETS.ACTUALALLOCATION.STRATEGICPORTFOLIO.NONE.A.1@AP2",
  "AP2.NONLISTEDCREDITS.ACTUALALLOCATION.STRATEGICPORTFOLIO.NONE.A.1@AP2",
  "AP2.OTHER.ACTUALALLOCATION.STRATEGICPORTFOLIO.NONE.A.1@AP2",
  "AP2.TOTAL.ACTUALALLOCATION.STRATEGICPORTFOLIO.NONE.A.1@AP2",
  "AP2.CURRENCYEXPOSURE.ACTUALALLOCATION.STRATEGICPORTFOLIO.NONE.A.1@AP2",
  "AP2.EQUITIES.ACTUALALLOCATION.NONE.A.1@AP2",
  "AP2.PRIVATEEQUITY.ACTUALALLOCATION.NONE.A.1@AP2",
  "AP2.REALASSETS.ACTUALALLOCATION.NONE.A.1@AP2",
  "AP2.FIXEDINCSECURITIES.ACTUALALLOCATION.NONE.A.1@AP2",
  "AP2.GOVBONDSDEVMARKETS.ACTUALALLOCATION.NONE.A.1@AP2",
  "AP2.CREDITBONDSDEVMARKETS.ACTUALALLOCATION.NONE.A.1@AP2",
  "AP2.BONDSEMMARKETS.ACTUALALLOCATION.NONE.A.1@AP2",
  "AP2.NONLISTEDCREDITS.ACTUALALLOCATION.NONE.A.1@AP2",
  "AP2.OTHER.ACTUALALLOCATION.NONE.A.1@AP2",
  "AP2.TOTAL.ACTUALALLOCATION.NONE.A.1@AP2",
  "AP2.CURRENCYEXPOSURE.ACTUALALLOCATION.NONE.A.1@AP2",
  "AP2.SUSTAINABLEINFRASTRUCTURE.ACTUALALLOCATION.NONE.A.1@AP2",
  "AP2.TRADITIONALREALESTATE.ACTUALALLOCATION.NONE.A.1@AP2",
  "AP2.NATURALCLIMATE.ACTUALALLOCATION.NONE.A.1@AP2",
  "AP2.NORTHAMERICA.ACTUALALLOCATION.NONE.A.1@AP2",
  "AP2.SOUTHAMERICA.ACTUALALLOCATION.NONE.A.1@AP2",
  "AP2.OCEANIA.ACTUALALLOCATION.NONE.A.1@AP2",
  "AP2.EUROPE.ACTUALALLOCATION.NONE.A.1@AP2",
  "AP2.SWEDEN.ACTUALALLOCATION.NONE.A.1@AP2",
  "AP2.ASIA.ACTUALALLOCATION.NONE.A.1@AP2",
  "AP2.OTHERS.ACTUALALLOCATION.NONE.A.1@AP2",
  "AP2.SWEDISHGOV.ACTUALALLOCATION.NONE.A.1@AP2",
  "AP2.SWMUNICIPAL.ACTUALALLOCATION.NONE.A.1@AP2",
  "AP2.SWMORTGAGE.ACTUALALLOCATION.NONE.A.1@AP2",
  "AP2.FINCOMP.ACTUALALLOCATION.NONE.A.1@AP2",
  "AP2.NONFINCOMP.ACTUALALLOCATION.NONE.A.1@AP2",
  "AP2.FOREIGNBONDS.ACTUALALLOCATION.NONE.A.1@AP2",
  "AP2.FOREIGNBONDSOTHERFORISS.ACTUALALLOCATION.NONE.A.1@AP2",
  "AP2.TOTALBONDSISSUERCAT.ACTUALALLOCATION.NONE.A.1@AP2",
  "AP2.BONDSOTHER.ACTUALALLOCATION.NONE.A.1@AP2",
  "AP2.LOANSUNLISTED.ACTUALALLOCATION.NONE.A.1@AP2",
  "AP2.FUNDSFIXEDINCOME.ACTUALALLOCATION.NONE.A.1@AP2",
  "AP2.TOTALBONDS.TYPEINSTR.ACTUALALLOCATION.NONE.A.1@AP2"]

/-- `config.OUTPUT_SUBHEADERS`: the human-readable row, `None` first. -/
def OUTPUT_SUBHEADERS : List (Option String) := [
  none,
  some "AP2 annual: Fund capital carried forward",
  some "AP2 annual: Net outflows to the national pension system",
  some "AP2 annual: Net result for the year",
  some "AP2 annual: Strategic portfolio - Swedish equities",
  some "AP2 annual: Strategic portfolio - Developed markets equities",
  some "AP2 annual: Strategic portfolio - Emerging markets equities",
  some "AP2 annual: Exposure - Swedish equities",
  some "AP2 annual: Exposure - Developed markets equities",
  some "AP2 annual: Exposure - Emerging markets equities",
  some "AP2 annual: Strategic portfolio - Equities",
  some "AP2 annual: Strategic portfolio - Private Equity",
  some "AP2 annual: Strategic portfolio - Real assets",
  some "AP2 annual: Strategic portfolio - Fixed-income securities",
  some "AP2 annual: Strategic portfolio - Government bonds in developed markets",
  some "AP2 annual: Strategic portfolio - Credit bonds in developed markets",
  some "AP2 annual: Strategic portfolio - Bonds in emerging markets",
  some "AP2 annual: Strategic portfolio - Non-listed credits",
  some "AP2 annual: Strategic portfolio - Other",
  some "AP2 annual: Strategic portfolio - Total",
  some "AP2 annual: Strategic portfolio - Currency exposure",
  some "AP2 annual: Exposure - Equities",
  some "AP2 annual: Alternative investments - Private equity",
  some "AP2 annual: Exposure - Real assets",
  some "AP2 annual: Exposure - Fixed-income securities",
  some "AP2 annual: Exposure - Government bonds in developed markets",
  some "AP2 annual: Exposure - Credit bonds in developed markets",
  some "AP2 annual: Exposure - Bonds in emerging markets",
  some "AP2 annual: Exposure - Non-listed credits",
  some "AP2 annual: Exposure - Other",
  some "AP2 annual: Exposure - Total",
  some "AP2 annual: Exposure - Currency exposure",
  some "AP2 annual: Alternative investments - Sustainable infrastructure",
  some "AP2 annual: Real Assets, Portfolio distribution - Traditional real estate",
  some "AP2 annual: Real Assets, Portfolio distribution - Natural Climate Solutions",
  some "AP2 annual: Real Assets, Geographical distribution - North America",
  some "AP2 annual: Real Assets, Geographical distribution - South America",
  some "AP2 annual: Real Assets, Geographical distribution - Oceania",
  some "AP2 annual: Real Assets, Geographical distribution - Europe",
  some "AP2 annual: Real Assets, Geographical distribution - Sweden",
  some "AP2 annual: Real Assets, Geographical distribution - Asia",
  some "AP2 annual: Real Assets, Geographical distribution - Others",
  some "AP2 annual: Bonds and other fixed-income securities, Swedish Government",
  some "AP2 annual: Bonds and other fixed-income securities, Swedish municipalities",
  some "AP2 annual: Bonds and other fixed-income securities, Swedish mortgage institutions",
  some "AP2 annual: Bonds and other fixed-income securities, Financial companies",
  some "AP2 annual: Bonds and other fixed-income securities, Non-financial companies",
  some "AP2 annual: Bonds and other fixed-income securities, Foreign governments",
  some "AP2 annual: Bonds and other fixed-income securities, Other foreign issuers",
  some "AP2 annual: Bonds and other fixed-income securities, Total (Issuer Category)",
  some "AP2 annual: Bonds and other fixed-income securities, Other bonds",
  some "AP2 annual: Bonds and other fixed-income securities, Unlisted loans",
  some "AP2 annual: Bonds and other fixed-income securities, Participations in foreign fixed-income funds",
  some "AP2 annual: Bonds and other fixed-income securities, Total (Instrument Type)"]

/-- `config.TARGET_YEAR` is either the literal string `"latest"` or a year. -/
inductive TargetYearCfg where
  | latest : TargetYearCfg
  | year : Int → TargetYearCfg
deriving DecidableEq, Repr

/-- `config.TARGET_YEAR = 2024`. -/
def TARGET_YEAR : TargetYearCfg := .year 2024

/-- `config.REPORT_TYPES`. -/
def REPORT_TYPES : List (String × Bool) :=
  [("annual", true), ("half_year", false), ("year_end", false)]

/-! ## `ap2_downloader.py` -/

/-- One scraped report link, as assembled in `parse_reports_page`. -/
structure Report where
  year : Int
  name : String
  url : String
  type : String
deriving DecidableEq, Repr

/-- `max(r['year'] for r in reports)` over a nonempty list. -/
def maxYear : List Report → Int
  | [] => 0
  | r :: rest => rest.foldl (fun m x => max m x.year) r.year

/-- `filter_reports` from `ap2_downloader.py` (lines 136-160): resolve the
target year (`"latest"` = max scraped year, empty page list short-circuits to
`[]`), then keep reports of that year whose type is enabled via
`config.REPORT_TYPES.get(type, False)`. -/
def filter_reports (cfg : TargetYearCfg) (reportTypes : List (String × Bool))
    (all_reports : List Report) : List Report :=
  match cfg with
  | .latest =>
      match all_reports with
      | [] => []
      | _ =>
          let targetYear := maxYear all_reports
          all_reports.filter (fun r =>
            r.year == targetYear && (alookup reportTypes r.type).getD false)
  | .year y =>
      all_reports.filter (fun r =>
        r.year == y && (alookup reportTypes r.type).getD false)

/-- The deduplication stanza closing `parse_reports_page`
(`ap2_downloader.py` lines 124-133): walk the scraped list keeping a `seen`
set of URLs, appending a report only when its URL is new. -/
def dedupe_by_url : List String → List Report → List Report
  | _, [] => []
  | seen, r :: rs =>
      if r.url ∈ seen then dedupe_by_url seen rs
      else r :: dedupe_by_url (r.url :: seen) rs

/-- `parse_reports_page`'s returned list: the scraped reports (scraping
itself is browser I/O, taken as the input) deduplicated by URL. -/
def parse_reports_page_dedupe (reports : List Report) : List Report :=
  dedupe_by_url [] reports

/-- `download_reports` from `ap2_downloader.py` (lines 163-193): try each
report in order; a successful attempt appends the downloaded path, a raised
exception (e.g. the `wait_for_download` timeout) is caught and the loop
continues. The navigate/wait/rename effect is abstracted as `attempt`. -/
def download_reports {E P : Type} (attempt : Report → Except E P)
    (reports : List Report) : List P :=
  reports.foldl (fun acc r =>
    match attempt r with
    | .ok p => acc ++ [p]
    | .error _ => acc) []

/-! ## `pdf_parser_new.create_output` -/

/-- The column-completion loop of `create_output` (`pdf_parser_new.py`
lines 457-459): for each configured header missing from the frame, append an
all-null column (`df[col] = None`). A data frame is modelled as its ordered
list of named columns. -/
def ensure_columns {C : Type} (hs : List String) (cols : List (String × C))
    (dflt : C) : List (String × C) :=
  hs.foldl (fun cs h => if (alookup cs h).isSome then cs else cs ++ [(h, dflt)]) cols

/-- `create_output`'s reindexing (`pdf_parser_new.py` lines 457-460): ensure
every configured header exists, then select the columns in exactly the
`config.OUTPUT_HEADERS` order (`df = df[config.OUTPUT_HEADERS]`). `nRows` is
the number of data rows (fiscal years); a cell is `none` when unresolved.
The input columns are the frame produced from the extracted mapping, with
the year index already reset into the `Unnamed: 0` column. -/
def create_output {α : Type} (nRows : Nat)
    (cols : List (String × List (Option α))) : List (String × List (Option α)) :=
  let noneCol := List.replicate nRows (none : Option α)
  let ensured := ensure_columns OUTPUT_HEADERS cols noneCol
  OUTPUT_HEADERS.map (fun h => (h, (alookup ensured h).getD noneCol))

/-! ## `RobustPDFParser` section extractors -/

/-- Python substring containment `pat in s` over char lists
(`""` is contained in everything, as in Python). -/
def containsSub (pat : List Char) : List Char → Bool
  | [] => pat.isEmpty
  | c :: rest => pat.isPrefixOf (c :: rest) || containsSub pat rest

/-- Python `str.lower()` (the pattern tables and report text are ASCII). -/
def pyLower (s : String) : String := String.mk (s.data.map Char.toLower)

/-- Python `text.split('\n')` (keeps empty segments, as Python does). -/
def splitNLChars : List Char → List Char → List String
  | acc, [] => [String.mk acc.reverse]
  | acc, c :: cs =>
      if c = '\n' then String.mk acc.reverse :: splitNLChars [] cs
      else splitNLChars (c :: acc) cs

/-- `lines = text.split('\n')`. -/
def pySplitNL (s : String) : List String := splitNLChars [] s.data

/-- `pattern in line.lower()` for one line of a page. -/
def line_matches (pat line : String) : Bool :=
  containsSub pat.data (pyLower line).data

/-- The `patterns` table of `extract_fund_capital_section`
(`pdf_parser_new.py` lines 197-210): field key to regex list. -/
def fund_capital_patterns : List (String × List String) := [
  ("AP2.FUNDCAPITALCARRIEDFORWARD.LEVEL.NONE.A.1@AP2",
    [r"fund\s+capital[\s\n]*(\d+[\s,]*\d*)",
     r"(\d+[\s,]*\d+).*fund.*capital"]),
  ("AP2.NETOUTFLOWSTOTHENATIONALPENSIONSYSTEM.FLOW.NONE.A.1@AP2",
    [r"net\s+outflows.*(\-?\d+[\s,]*\d*)",
     r"outflows.*pension.*(\-?\d+[\s,]*\d*)"]),
  ("AP2.TOTAL.FLOW.NONE.A.1@AP2",
    [r"net\s+result.*year[\s\n]*(\d+[\s,]*\d*)",
     r"result.*(\d+[\s,]*\d+)"])]

/-- The `field_patterns` table of `extract_asset_allocation_section`
(`pdf_parser_new.py` lines 240-258). -/
def asset_allocation_patterns : List (String × List String) := [
  ("AP2.DOMESTICEQUITIES.ACTUALALLOCATION.STRATEGICPORTFOLIO.NONE.A.1@AP2",
    ["swedish equities", "domestic equities"]),
  ("AP2.DEVELOPEDEQUITIES.ACTUALALLOCATION.STRATEGICPORTFOLIO.NONE.A.1@AP2",
    ["developed markets equities", "developed equities"]),
  ("AP2.EMERGINGEQUITIES.ACTUALALLOCATION.STRATEGICPORTFOLIO.NONE.A.1@AP2",
    ["emerging markets equities", "emerging equities"]),
  ("AP2.PRIVATEEQUITY.ACTUALALLOCATION.STRATEGICPORTFOLIO.NONE.A.1@AP2",
    ["private equity"]),
  ("AP2.REALASSETS.ACTUALALLOCATION.STRATEGICPORTFOLIO.NONE.A.1@AP2",
    ["real assets"]),
  ("AP2.GOVBONDSDEVMARKETS.ACTUALALLOCATION.STRATEGICPORTFOLIO.NONE.A.1@AP2",
    ["government bonds", "govt bonds"]),
  ("AP2.CREDITBONDSDEVMARKETS.ACTUALALLOCATION.STRATEGICPORTFOLIO.NONE.A.1@AP2",
    ["credit bonds"]),
  ("AP2.BONDSEMMARKETS.ACTUALALLOCATION.STRATEGICPORTFOLIO.NONE.A.1@AP2",
    ["bonds in emerging", "emerging markets bonds"]),
  ("AP2.NONLISTEDCREDITS.ACTUALALLOCATION.STRATEGICPORTFOLIO.NONE.A.1@AP2",
    ["non-listed credits", "unlisted credits"]),
  ("AP2.TOTAL.ACTUALALLOCATION.STRATEGICPORTFOLIO.NONE.A.1@AP2",
    ["total"]),
  ("AP2.CURRENCYEXPOSURE.ACTUALALLOCATION.STRATEGICPORTFOLIO.NONE.A.1@AP2",
    ["currency exposure"]),
  ("AP2.DOMESTICEQUITIES.ACTUALALLOCATION.NONE.A.1@AP2",
    ["swedish equities", "domestic equities"]),
  ("AP2.DEVELOPEDEQUITIES.ACTUALALLOCATION.NONE.A.1@AP2",
    ["developed markets equities", "developed equities"]),
  ("AP2.EMEQUITIES.ACTUALALLOCATION.NONE.A.1@AP2",
    ["emerging markets equities", "emerging equities"])]

/-- The `field_patterns` table of `extract_real_assets_section`
(`pdf_parser_new.py` lines 299-310). -/
def real_assets_patterns : List (String × List String) := [
  ("AP2.SUSTAINABLEINFRASTRUCTURE.ACTUALALLOCATION.NONE.A.1@AP2",
    ["sustainable infrastructure", "infrastructure"]),
  ("AP2.TRADITIONALREALESTATE.ACTUALALLOCATION.NONE.A.1@AP2",
    ["traditional real estate", "real estate"]),
  ("AP2.NATURALCLIMATE.ACTUALALLOCATION.NONE.A.1@AP2",
    ["natural climate", "climate solutions"]),
  ("AP2.NORTHAMERICA.ACTUALALLOCATION.NONE.A.1@AP2", ["north america"]),
  ("AP2.SOUTHAMERICA.ACTUALALLOCATION.NONE.A.1@AP2", ["south america"]),
  ("AP2.OCEANIA.ACTUALALLOCATION.NONE.A.1@AP2", ["oceania"]),
  ("AP2.EUROPE.ACTUALALLOCATION.NONE.A.1@AP2", ["europe"]),
  ("AP2.SWEDEN.ACTUALALLOCATION.NONE.A.1@AP2", ["sweden"]),
  ("AP2.ASIA.ACTUALALLOCATION.NONE.A.1@AP2", ["asia"]),
  ("AP2.OTHERS.ACTUALALLOCATION.NONE.A.1@AP2", ["others"])]

/-- The `field_patterns` table of `extract_bonds_section`
(`pdf_parser_new.py` lines 346-357). -/
def bonds_patterns : List (String × List String) := [
  ("AP2.SWEDISHGOV.ACTUALALLOCATION.NONE.A.1@AP2", ["swedish government"]),
  ("AP2.SWMUNICIPAL.ACTUALALLOCATION.NONE.A.1@AP2", ["swedish municipalities"]),
  ("AP2.SWMORTGAGE.ACTUALALLOCATION.NONE.A.1@AP2",
    ["swedish mortgage", "mortgage institutions"]),
  ("AP2.FINCOMP.ACTUALALLOCATION.NONE.A.1@AP2", ["financial companies"]),
  ("AP2.NONFINCOMP.ACTUALALLOCATION.NONE.A.1@AP2", ["non-financial companies"]),
  ("AP2.FOREIGNBONDS.ACTUALALLOCATION.NONE.A.1@AP2", ["foreign governments"]),
  ("AP2.FOREIGNBONDSOTHERFORISS.ACTUALALLOCATION.NONE.A.1@AP2",
    ["other foreign issuers"]),
  ("AP2.BONDSOTHER.ACTUALALLOCATION.NONE.A.1@AP2", ["other bonds"]),
  ("AP2.LOANSUNLISTED.ACTUALALLOCATION.NONE.A.1@AP2", ["unlisted loans"]),
  ("AP2.FUNDSFIXEDINCOME.ACTUALALLOCATION.NONE.A.1@AP2",
    ["participations in foreign", "fixed-income funds"])]

/-- What one pattern of the pattern-table extractors yields on one page
(`pdf_parser_new.py` lines 270-285 and the analogous loops at 319-332 and
366-379): only the FIRST line containing the pattern is examined — the
trailing `break` leaves the line loop whether or not that line produced a
number. The per-line number scan (`re.findall` plus the section's validity
filter, e.g. `0 <= val <= 100` or `cleaned_num > 10`, taking the first
valid number) is an external-regex computation abstracted as `lineValue`. -/
def pattern_attempt {V : Type} (lineValue : String → Option V)
    (lines : List String) (pat : String) : Option V :=
  match lines.find? (fun line => line_matches pat line) with
  | some line => lineValue line
  | none => none

/-- One pattern step on the shared dict: a successful attempt executes
`data[field_key] = val` — also over a value assigned by an earlier pattern,
since the source has no `break` out of the pattern loop after an
assignment and no membership re-check inside it. -/
def pattern_try {V : Type} (lineValue : String → Option V) (lines : List String)
    (fk : String) (d : List (String × V)) (pat : String) : List (String × V) :=
  match pattern_attempt lineValue lines pat with
  | some v => dictInsert d fk v
  | none => d

/-- Last non-`none` result of `f` along a list: the net outcome of repeated
overwriting assignment. -/
def lastSome? {α V : Type} (f : α → Option V) (l : List α) : Option V :=
  l.foldl (fun acc x =>
    match f x with
    | some v => some v
    | none => acc) none

/-- Net value a pattern list leaves for its field on one page: the LAST
pattern whose first matching line yields a valid number (not the first). -/
def page_value {V : Type} (lineValue : String → Option V) (pats : List String)
    (lines : List String) : Option V :=
  lastSome? (pattern_attempt lineValue lines) pats

/-- One page pass of the three pattern-table extractors (asset allocation,
real assets, bonds): for each field of the table, skip it when already in
`data` (`if field_key in data: continue` — this guard runs once, before the
pattern loop), else run the entire pattern loop, in which later patterns
overwrite. -/
def pattern_page_pass {V : Type} (lineValue : String → Option V)
    (ptable : List (String × List String)) (data : List (String × V))
    (lines : List String) : List (String × V) :=
  ptable.foldl (fun d entry =>
    if (alookup d entry.1).isSome then d
    else entry.2.foldl (pattern_try lineValue lines entry.1) d) data

/-- Generic keyed table pass: guard on the key, then at most one assignment
computed from the entry. `fund_capital_page_pass` is literally of this
shape; the pattern-table pass collapses to it with `page_value`
(theorem `pattern_page_pass_eq_table_pass`). -/
def table_pass {V : Type} (f : String × List String → Option V)
    (ptable : List (String × List String)) (data : List (String × V)) :
    List (String × V) :=
  ptable.foldl (fun d entry =>
    if (alookup d entry.1).isSome then d
    else
      match f entry with
      | some v => dictInsert d entry.1 v
      | none => d) data

/-- `extract_fund_capital_section`'s per-page field loop
(`pdf_parser_new.py` lines 214-224): the `field_key in data` guard, then
the FIRST regex of the field's list whose search-and-clean yields a value
is assigned and the `break` leaves the pattern loop (unlike the other three
extractors). `regexParse pat text` abstracts `re.search(pat, text)` +
`clean_number_value(match.group(1))` on the page's lowercased search
window. -/
def fund_capital_page_pass {V : Type} (regexParse : String → String → Option V)
    (data : List (String × V)) (searchText : String) : List (String × V) :=
  table_pass (fun entry => entry.2.findSome? (fun pat => regexParse pat searchText))
    fund_capital_patterns data

/-- `RobustPDFParser.extract_fund_capital_section`: fold the field loop over
the per-page search windows (pages whose year line was not found are
skipped by the source before this loop and so do not appear here). -/
def extract_fund_capital_section {V : Type} (regexParse : String → String → Option V)
    (searchTexts : List String) : List (String × V) :=
  searchTexts.foldl (fund_capital_page_pass regexParse) []

/-- `RobustPDFParser.extract_asset_allocation_section`: split each matching
page into lines and run the pattern-table pass, starting from `{}`. -/
def extract_asset_allocation_section {V : Type} (lineValue : String → Option V)
    (pages : List String) : List (String × V) :=
  pages.foldl
    (fun d text => pattern_page_pass lineValue asset_allocation_patterns d (pySplitNL text)) []

/-- `RobustPDFParser.extract_real_assets_section`. -/
def extract_real_assets_section {V : Type} (lineValue : String → Option V)
    (pages : List String) : List (String × V) :=
  pages.foldl
    (fun d text => pattern_page_pass lineValue real_assets_patterns d (pySplitNL text)) []

/-- `RobustPDFParser.extract_bonds_section`. -/
def extract_bonds_section {V : Type} (lineValue : String → Option V)
    (pages : List String) : List (String × V) :=
  pages.foldl
    (fun d text => pattern_page_pass lineValue bonds_patterns d (pySplitNL text)) []

/-! ## LLM retry loops -/

/-- `PerfectLLMParser.__init__` default `max_retries`. -/
def perfect_default_max_retries : Nat := 3

/-- The retry loop of `PerfectLLMParser.extract_section_with_precision`
(`perfect_llm_parser.py` lines 303-355). `attempt i` abstracts one LLM call
plus fence-stripping, brace extraction and `json.loads`; `none` is any
raised `JSONDecodeError`/network error. Returns the first successful parse
together with the number of calls made (`i` counts calls already made,
`fuel` counts calls still allowed). -/
def retry_go {A : Type} (attempt : Nat → Option A) : Nat → Nat → Option A × Nat
  | i, 0 => (none, i)
  | i, Nat.succ fuel =>
      match attempt i with
      | some a => (some a, i + 1)
      | none => retry_go attempt (i + 1) fuel

/-- The post-parse cleaning of `extract_section_with_precision`
(`perfect_llm_parser.py` lines 330-342) applied to a parsed JSON object:
drop `null` and `""`, keep numbers, convert numeric strings
(`float` if the text contains a `.`, else `int`), drop the rest. -/
inductive JsonVal where
  | null : JsonVal
  | str : String → JsonVal
  | num : PyNum → JsonVal
deriving DecidableEq, Repr

/-- Convert one JSON value as the cleaning loop does; `none` means the
key/value pair is skipped. -/
def clean_json_value (v : JsonVal) : Option PyNum :=
  match v with
  | .null => none
  | .num n => some n
  | .str s =>
      if s == "" then none
      else if s.data.contains '.' then (pyFloat s).map PyNum.float
      else (pyInt s).map PyNum.int

/-- The `cleaned_result` loop: a dict rebuilt with the converted values. -/
def clean_result (kvs : List (String × JsonVal)) : List (String × PyNum) :=
  kvs.foldl (fun d kv =>
    match clean_json_value kv.2 with
    | some n => dictInsert d kv.1 n
    | none => d) []

/-- `PerfectLLMParser.extract_section_with_precision`: run up to
`maxRetries` attempts; a success returns the cleaned mapping, exhaustion
returns the empty mapping (never raises). The second component instruments
the model with the number of LLM calls actually made. -/
def extract_section_with_precision (attempt : Nat → Option (List (String × JsonVal)))
    (maxRetries : Nat) : List (String × PyNum) × Nat :=
  match retry_go attempt 0 maxRetries with
  | (some kvs, n) => (clean_result kvs, n)
  | (none, n) => ([], n)

/-- The value conversion of `extract_annual_data` (`llm_extractor.py`
lines 83-94): skip `None`; `float(value)` (parse failure skips the pair);
narrow to `int` when `float_val == int(float_val)`. -/
def annual_value_conv (v : JsonVal) : Option PyNum :=
  match v with
  | .null => none
  | .num (PyNum.int z) => some (PyNum.int z)
  | .num (PyNum.float q) =>
      if q.den == 1 then some (PyNum.int q.num) else some (PyNum.float q)
  | .str s =>
      match pyFloat s with
      | none => none
      | some q => if q.den == 1 then some (PyNum.int q.num) else some (PyNum.float q)

/-- `LLMExtractor.extract_annual_data` (`llm_extractor.py` lines 43-101):
a single `_call_llm` + `json.loads` wrapped in one `try`; any exception
yields `{}`. On success, values are passed through `float(value)` and
narrowed to `int` when integral; non-numeric values are skipped. The call
stream is modelled like the retried one so call counts are comparable; only
`calls 0` is ever consulted, and the second component counts calls made. -/
def extract_annual_data (calls : Nat → Option (List (String × JsonVal)))
    : List (String × PyNum) × Nat :=
  match calls 0 with
  | none => ([], 1)
  | some kvs =>
      (kvs.foldl (fun d kv =>
        match annual_value_conv kv.2 with
        | some n => dictInsert d kv.1 n
        | none => d) [], 1)

/-! ## JSON payload extraction -/

/-- Python `str.find`: index of the first occurrence, `none` for `-1`. -/
def pyFindChar (c : Char) : List Char → Option Nat
  | [] => none
  | x :: xs => if x = c then some 0 else (pyFindChar c xs).map (· + 1)

/-- Python `str.rfind`: index of the last occurrence, `none` for `-1`. -/
def pyRfindChar (c : Char) : List Char → Option Nat
  | [] => none
  | x :: xs =>
      match pyRfindChar c xs with
      | some j => some (j + 1)
      | none => if x = c then some 0 else none

/-- The brace-extraction step shared verbatim by `LLMExtractor._call_llm`
(`llm_extractor.py` lines 129-132) and
`PerfectLLMParser.extract_section_with_precision` (`perfect_llm_parser.py`
lines 321-325): after fence stripping, when the first `{` and the last `}`
both exist and the `}` comes strictly later, the content is replaced by
`content[start_idx:end_idx+1]`; otherwise it is left unchanged. -/
def extract_json_payload (cs : List Char) : List Char :=
  match pyFindChar openBrace cs, pyRfindChar closeBrace cs with
  | some i, some j => if i < j then (cs.drop i).take (j + 1 - i) else cs
  | _, _ => cs

/-! ## Year extraction from filenames -/

/-- The leftmost `re.search(r'(\d{4})')` match: scan for the first position
with four consecutive digits and return their value. -/
def findFourDigitRun : List Char → Option Nat
  | a :: b :: c :: d :: rest =>
      if a.isDigit && b.isDigit && c.isDigit && d.isDigit then
        some (digitsToNat [a, b, c, d])
      else findFourDigitRun (b :: c :: d :: rest)
  | _ => none

/-- The leftmost `re.search(r'(20\d{2})')` match. -/
def find20xxRun : List Char → Option Nat
  | a :: b :: c :: d :: rest =>
      if a == '2' && b == '0' && c.isDigit && d.isDigit then
        some (digitsToNat [a, b, c, d])
      else find20xxRun (b :: c :: d :: rest)
  | _ => none

/-- `RobustPDFParser.extract_year_from_filename` (`pdf_parser_new.py`
lines 423-431): first 4-digit number of the basename if it lies in
`[2000, now.year + 1]`, else the current year. `now` abstracts
`datetime.now().year`. -/
def extract_year_from_filename (now : Int) (filename : String) : Int :=
  match findFourDigitRun (pyBasename filename).data with
  | some y => if 2000 ≤ (y : Int) ∧ (y : Int) ≤ now + 1 then (y : Int) else now
  | none => now

/-- `PerfectLLMParser.extract_year_from_filename` (`perfect_llm_parser.py`
lines 44-55): first `20\d{2}` number of the basename, else the current
year; no range check. -/
def perfect_extract_year_from_filename (now : Int) (pdfPath : String) : Int :=
  match find20xxRun (pyBasename pdfPath).data with
  | some y => (y : Int)
  | none => now

/-- Spec-side description of a `\d{4}` regex match at offset `i`: four
consecutive characters exist there and all are digits. Stated via
`drop`/`take`, independently of the scanners above. -/
def isDigitRunAt (cs : List Char) (i : Nat) : Bool :=
  ((cs.drop i).take 4).length == 4 && allDigits ((cs.drop i).take 4)

/-- Spec-side description of a `20\d{2}` regex match at offset `i`. -/
def is20RunAt (cs : List Char) (i : Nat) : Bool :=
  match (cs.drop i).take 4 with
  | [a, b, c, d] => a == '2' && b == '0' && c.isDigit && d.isDigit
  | _ => false

/-- Numeric value of the four characters at offset `i`. -/
def runValueAt (cs : List Char) (i : Nat) : Nat :=
  digitsToNat ((cs.drop i).take 4)

/-! ## `PerfectLLMParser.extract_all_sections` -/

/-- `f'{previous_year}_'`, the bonds previous-year key marker. -/
def yearKeyMarker (previousYear : Int) : String := toString previousYear ++ "_"

/-- Section names iterated by `extract_all_sections`. -/
def sections_list : List String :=
  ["fund_capital", "asset_allocation", "real_assets", "bonds"]

/-- One bonds entry of the splitting loop (`perfect_llm_parser.py`
lines 460-469): a key starting with the previous-year marker is stripped of
its first 5 characters (`key[5:]`) and stored in the previous-year dict,
anything else goes to the current-year dict. The accumulator is
`(previous_year_data, current_year_data)`. -/
def strip_bonds_step {V : Type} (marker : String)
    (acc : List (String × V) × List (String × V)) (kv : String × V) :
    List (String × V) × List (String × V) :=
  if pyStartsWith kv.1 marker then
    (dictInsert acc.1 (pyDropChars 5 kv.1) kv.2, acc.2)
  else
    (acc.1, dictInsert acc.2 kv.1 kv.2)

/-- `current_year_data.update(data)` for the three non-bonds sections. -/
def nonbonds_fold {V : Type} (data cd : List (String × V)) : List (String × V) :=
  data.foldl (fun d kv => dictInsert d kv.1 kv.2) cd

/-- Per-section accumulation step of `extract_all_sections`. -/
def all_sections_step {V : Type} (marker : String)
    (acc : List (String × V) × List (String × V)) (sectionName : String)
    (data : List (String × V)) : List (String × V) × List (String × V) :=
  if sectionName = "bonds" then data.foldl (strip_bonds_step marker) acc
  else (acc.1, nonbonds_fold data acc.2)

/-- `PerfectLLMParser.extract_all_sections` (`perfect_llm_parser.py`
lines 443-501) after the per-section LLM extraction, which is abstracted as
`secData` (each `extract_section_with_precision` result; failures are `{}`):
accumulate current/previous-year dicts over the four sections, then emit the
previous-year row first and the current-year row second, each only when
non-empty. -/
def extract_all_sections {V : Type} (currentYear : Int)
    (secData : String → List (String × V)) : List (Int × List (String × V)) :=
  let previousYear := currentYear - 1
  let marker := yearKeyMarker previousYear
  let res := sections_list.foldl
    (fun acc s => all_sections_step marker acc s (secData s)) ([], [])
  (if res.1.isEmpty then [] else [(previousYear, res.1)])
    ++ (if res.2.isEmpty then [] else [(currentYear, res.2)])

/-! ## Shared association-list lemmas -/

theorem alookup_dictInsert {K V : Type} [DecidableEq K] (d : List (K × V))
    (k : K) (v : V) (key : K) :
    alookup (dictInsert d k v) key = if key = k then some v else alookup d key := by
  induction d with
  | nil => simp [dictInsert, alookup]
  | cons kv rest ih =>
    obtain ⟨k', v'⟩ := kv
    by_cases h : k' = k
    · subst h
      by_cases hk : key = k' <;> simp [dictInsert, alookup, hk]
    · by_cases hk : key = k'
      · subst hk
        simp [dictInsert, alookup, h]
      · simp [dictInsert, alookup, h, hk, ih]

theorem alookup_append_single {K V : Type} [DecidableEq K] (d : List (K × V))
    (k : K) (v : V) (key : K) :
    alookup (d ++ [(k, v)]) key =
      match alookup d key with
      | some w => some w
      | none => if key = k then some v else none := by
  induction d with
  | nil => simp [alookup]
  | cons kv rest ih =>
    by_cases h : key = kv.1 <;> simp [alookup, h, ih]

theorem keys_dictInsert {K V : Type} [DecidableEq K] (d : List (K × V))
    (k : K) (v : V) (key : K) :
    key ∈ (dictInsert d k v).map Prod.fst ↔ key = k ∨ key ∈ d.map Prod.fst := by
  induction d with
  | nil => simp [dictInsert]
  | cons kv rest ih =>
    obtain ⟨k', v'⟩ := kv
    by_cases h : k' = k
    · subst h
      have hins : dictInsert ((k', v') :: rest) k' v = (k', v) :: rest := by
        simp [dictInsert]
      rw [hins]
      simp only [List.map_cons, List.mem_cons]
      tauto
    · simp only [dictInsert, if_neg h, List.map_cons, List.mem_cons, ih]
      tauto

/-! ## C3: Swedish number parsing -/

/-- C3: the number-cleaning functions parse Swedish-formatted number strings
to the correct value and sign: `"184 676"` parses to `184676`, `"-2 410"` to
`-2410`, and `"9%"` (with percentage handling) to `9.0`, both for
`clean_number_string` in `pdf_parser_enhanced.py` and for
`clean_number_value` in `pdf_parser_new.py`. -/
theorem C3_swedish_number_cleaning :
    clean_number_string "184 676" false false = some (PyNum.int 184676)
      ∧ clean_number_string "-2 410" false false = some (PyNum.int (-2410))
      ∧ clean_number_string "9%" false true = some (PyNum.float 9)
      ∧ clean_number_value "184 676" = some 184676
      ∧ clean_number_value "-2 410" = some (-2410)
      ∧ clean_number_value "9%" = some 9 := by
  refine ⟨?_, ?_, ?_, ?_, ?_, ?_⟩ <;> decide

/-! ## C5: report filtering -/

/-- C5: with the configured target year 2024 and report types
`annual: true, half_year: false` (and `year_end: false`), `filter_reports`
keeps exactly the annual reports of 2024, in scrape order: every report of a
different year or of a disabled type is excluded. -/
theorem C5_filter_reports_target_2024 (reports : List Report) :
    filter_reports TARGET_YEAR REPORT_TYPES reports
      = reports.filter (fun r => r.year == 2024 && r.type == "annual") := by
  show reports.filter _ = reports.filter _
  apply List.filter_congr
  intro r _
  have htype : (alookup REPORT_TYPES r.type).getD false = (r.type == "annual") := by
    by_cases h1 : r.type = "annual"
    · simp [REPORT_TYPES, alookup, h1]
    · by_cases h2 : r.type = "half_year"
      · simp [REPORT_TYPES, alookup, h1, h2]
      · by_cases h3 : r.type = "year_end" <;>
          simp [REPORT_TYPES, alookup, h1, h2, h3]
  rw [htype]

/-! ## C6: URL deduplication -/

theorem dedupe_by_url_urls (seen : List String) (rs : List Report) :
    ((dedupe_by_url seen rs).map (fun r => r.url)).Nodup
      ∧ ∀ u ∈ (dedupe_by_url seen rs).map (fun r => r.url), u ∉ seen := by
  induction rs generalizing seen with
  | nil => simp [dedupe_by_url]
  | cons r rs ih =>
    by_cases h : r.url ∈ seen
    · simpa [dedupe_by_url, h] using ih seen
    · have ih' := ih (r.url :: seen)
      refine ⟨?_, ?_⟩
      · simp only [dedupe_by_url, if_neg h, List.map_cons, List.nodup_cons]
        refine ⟨fun hmem => ?_, ih'.1⟩
        exact (ih'.2 _ hmem) (List.mem_cons_self _ _)
      · intro u hu
        simp only [dedupe_by_url, if_neg h, List.map_cons, List.mem_cons] at hu
        rcases hu with rfl | hu
        · exact h
        · exact fun hs => (ih'.2 u hu) (List.mem_cons_of_mem _ hs)

theorem dedupe_by_url_sublist (seen : List String) (rs : List Report) :
    List.Sublist (dedupe_by_url seen rs) rs := by
  induction rs generalizing seen with
  | nil => simp [dedupe_by_url]
  | cons r rs ih =>
    by_cases h : r.url ∈ seen
    · simpa [dedupe_by_url, h] using (ih seen).cons r
    · simpa [dedupe_by_url, h] using (ih (r.url :: seen)).cons₂ r

theorem dedupe_by_url_find? (rs : List Report) (u : String) : ∀ seen : List String,
    u ∉ seen →
    (dedupe_by_url seen rs).find? (fun r => r.url == u)
      = rs.find? (fun r => r.url == u) := by
  induction rs with
  | nil => intro seen _; simp [dedupe_by_url]
  | cons r rs ih =>
    intro seen hu
    by_cases h : r.url ∈ seen
    · have hne : (r.url == u) = false := by
        simp only [beq_eq_false_iff_ne, ne_eq]
        rintro rfl
        exact hu h
      simp only [dedupe_by_url, if_pos h, List.find?_cons, hne]
      exact ih seen hu
    · by_cases he : r.url = u
      · have hbe : (r.url == u) = true := by simpa using he
        simp only [dedupe_by_url, if_neg h]
        simp [List.find?_cons, hbe]
      · have hne : (r.url == u) = false := by simpa using he
        simp only [dedupe_by_url, if_neg h, List.find?_cons, hne]
        refine ih (r.url :: seen) ?_
        simp only [List.mem_cons, not_or]
        exact ⟨fun hh => he hh.symm, hu⟩

/-- C6: `parse_reports_page` deduplicates by URL before download: the list
it returns contains each URL at most once, is a sublist of the scraped list
(relative order preserved), and for every URL the report it keeps is the
first scraped report carrying that URL. -/
theorem C6_dedupe_by_url_spec (reports : List Report) :
    ((parse_reports_page_dedupe reports).map (fun r => r.url)).Nodup
      ∧ List.Sublist (parse_reports_page_dedupe reports) reports
      ∧ ∀ u : String,
          (parse_reports_page_dedupe reports).find? (fun r => r.url == u)
            = reports.find? (fun r => r.url == u) := by
  refine ⟨(dedupe_by_url_urls [] reports).1, dedupe_by_url_sublist [] reports, ?_⟩
  intro u
  exact dedupe_by_url_find? reports u [] (List.not_mem_nil u)

/-! ## C7: download loop continues after a timeout -/

theorem download_reports_foldl {E P : Type} (attempt : Report → Except E P)
    (rs : List Report) (acc : List P) :
    rs.foldl (fun acc r =>
        match attempt r with
        | .ok p => acc ++ [p]
        | .error _ => acc) acc
      = acc ++ rs.filterMap (fun r => (attempt r).toOption) := by
  induction rs generalizing acc with
  | nil => simp
  | cons r rs ih =>
    cases h : attempt r <;> simp [List.filterMap_cons, h, ih, Except.toOption]

theorem download_reports_eq_filterMap {E P : Type} (attempt : Report → Except E P)
    (rs : List Report) :
    download_reports attempt rs = rs.filterMap (fun r => (attempt r).toOption) := by
  simpa using download_reports_foldl attempt rs []

/-- C7: when the download attempt for one report raises (the
`wait_for_download` timeout), `download_reports` catches it, drops only that
report, and keeps going: the result over `pre ++ bad :: post` is the
successful downloads of `pre` (all earlier downloads retained, in order)
followed by those of `post`. -/
theorem C7_download_timeout_skips {E P : Type} (attempt : Report → Except E P)
    (e : E) (pre post : List Report) (bad : Report)
    (h : attempt bad = Except.error e) :
    download_reports attempt (pre ++ bad :: post)
      = download_reports attempt pre ++ download_reports attempt post := by
  simp [download_reports_eq_filterMap, List.filterMap_append, List.filterMap_cons,
    h, Except.toOption]

/-- Concrete run of `C7_download_timeout_skips`: the middle report times
out, the first and last still download. -/
theorem C7_download_timeout_skips_witness :
    (fun r : Report => if r.url == "u2" then (Except.error "timeout" : Except String String)
        else Except.ok r.url) ⟨2024, "b", "u2", "annual"⟩ = Except.error "timeout"
      ∧ download_reports
          (fun r : Report => if r.url == "u2" then (Except.error "timeout" : Except String String)
            else Except.ok r.url)
          ([⟨2024, "a", "u1", "annual"⟩] ++ ⟨2024, "b", "u2", "annual"⟩ ::
            [⟨2024, "c", "u3", "annual"⟩])
        = download_reports
            (fun r : Report => if r.url == "u2" then (Except.error "timeout" : Except String String)
              else Except.ok r.url) [⟨2024, "a", "u1", "annual"⟩]
          ++ download_reports
            (fun r : Report => if r.url == "u2" then (Except.error "timeout" : Except String String)
              else Except.ok r.url) [⟨2024, "c", "u3", "annual"⟩] :=
  ⟨rfl, C7_download_timeout_skips _ "timeout" _ _ _ rfl⟩

/-! ## C1: output schema -/

theorem ensure_columns_alookup {C : Type} (dflt : C) (hs : List String) :
    ∀ (cols : List (String × C)) (key : String),
    alookup (ensure_columns hs cols dflt) key =
      match alookup cols key with
      | some w => some w
      | none => if key ∈ hs then some dflt else none := by
  induction hs with
  | nil =>
    intro cols key
    cases h : alookup cols key <;> simp [ensure_columns, h]
  | cons h hs ih =>
    intro cols key
    have hfold : ensure_columns (h :: hs) cols dflt
        = ensure_columns hs
            (if (alookup cols h).isSome then cols else cols ++ [(h, dflt)]) dflt := rfl
    rw [hfold]
    cases hc : alookup cols h with
    | some w0 =>
      rw [if_pos (by simp [hc]), ih cols key]
      cases hk : alookup cols key with
      | some w => simp
      | none =>
        have hkh : key ≠ h := by
          intro hh
          rw [hh, hc] at hk
          exact Option.noConfusion hk
        simp [List.mem_cons, hkh]
    | none =>
      rw [if_neg (by simp [hc]), ih (cols ++ [(h, dflt)]) key,
        alookup_append_single]
      cases hk : alookup cols key with
      | some w => simp
      | none =>
        by_cases hkh : key = h
        · simp [hkh]
        · simp [hkh]

/-- C1: `create_output` always emits the columns in exactly the
`config.OUTPUT_HEADERS` order, whatever subset of identifiers was resolved
and in whatever order the extracted columns arrived; the sub-header row has
one entry per identifier, index-aligned; and each column is exactly the
extracted column for its own identifier — the all-null column when that
identifier is absent — so no other column is shifted. -/
theorem C1_create_output_schema {α : Type} (nRows : Nat)
    (cols : List (String × List (Option α))) :
    (create_output nRows cols).map Prod.fst = OUTPUT_HEADERS
      ∧ OUTPUT_SUBHEADERS.length = OUTPUT_HEADERS.length
      ∧ create_output nRows cols
          = OUTPUT_HEADERS.map (fun h =>
              (h, (alookup cols h).getD (List.replicate nRows none))) := by
  refine ⟨?_, rfl, ?_⟩
  · simp only [create_output, List.map_map]
    simp [Function.comp_def]
  · simp only [create_output]
    apply List.map_congr_left
    intro h hmem
    rw [ensure_columns_alookup]
    cases hk : alookup cols h with
    | some w => simp
    | none => simp [hmem]

/-! ## C2: assignment discipline of the section extractors -/

theorem dictInsert_dictInsert {K V : Type} [DecidableEq K]
    (d : List (K × V)) (k : K) (v w : V) :
    dictInsert (dictInsert d k v) k w = dictInsert d k w := by
  induction d with
  | nil => simp [dictInsert]
  | cons kv rest ih =>
    obtain ⟨k0, v0⟩ := kv
    by_cases h : k0 = k
    · subst h
      simp [dictInsert]
    · simp [dictInsert, h, ih]

theorem foldl_lastSome_absorb {α V : Type} (g : α → Option V) :
    ∀ (l : List α) (a : Option V),
    List.foldl (fun acc x =>
        match g x with
        | some v => some v
        | none => acc) a l
      = match List.foldl (fun acc x =>
            match g x with
            | some v => some v
            | none => acc) none l with
        | some v => some v
        | none => a := by
  intro l
  induction l with
  | nil => intro a; rfl
  | cons x xs ih =>
    intro a
    rw [List.foldl_cons, List.foldl_cons]
    cases hgx : g x with
    | none =>
      simp only [hgx]
      exact ih a
    | some v =>
      simp only [hgx]
      rw [ih (some v)]
      cases List.foldl (fun acc x =>
          match g x with
          | some v => some v
          | none => acc) none xs <;> rfl

theorem pattern_try_foldl {V : Type} (lineValue : String → Option V)
    (lines : List String) (fk : String) :
    ∀ (pats : List String) (d : List (String × V)),
    pats.foldl (pattern_try lineValue lines fk) d
      = match page_value lineValue pats lines with
        | some v => dictInsert d fk v
        | none => d := by
  intro pats
  induction pats with
  | nil => intro d; rfl
  | cons p ps ih =>
    intro d
    rw [List.foldl_cons]
    have hpv : page_value lineValue (p :: ps) lines
        = List.foldl (fun acc pat =>
            match pattern_attempt lineValue lines pat with
            | some v => some v
            | none => acc)
          (match pattern_attempt lineValue lines p with
           | some v => some v
           | none => none) ps := rfl
    have hpv2 : page_value lineValue ps lines
        = List.foldl (fun acc pat =>
            match pattern_attempt lineValue lines pat with
            | some v => some v
            | none => acc) none ps := rfl
    rw [hpv]
    cases hp : pattern_attempt lineValue lines p with
    | none =>
      have hstep : pattern_try lineValue lines fk d p = d := by
        simp [pattern_try, hp]
      rw [hstep, ih d]
      simp only [hp]
      rw [hpv2]
    | some v =>
      have hstep : pattern_try lineValue lines fk d p = dictInsert d fk v := by
        simp [pattern_try, hp]
      rw [hstep, ih (dictInsert d fk v)]
      simp only [hp]
      rw [foldl_lastSome_absorb (pattern_attempt lineValue lines) ps (some v), hpv2]
      cases hps : List.foldl (fun acc pat =>
          match pattern_attempt lineValue lines pat with
          | some v => some v
          | none => acc) none ps with
      | some w =>
        show dictInsert (dictInsert d fk v) fk w = dictInsert d fk w
        exact dictInsert_dictInsert d fk v w
      | none => rfl

theorem table_pass_preserve {V : Type} (f : String × List String → Option V) :
    ∀ (ptable : List (String × List String)) (d : List (String × V)) (fk : String),
    fk ∉ ptable.map Prod.fst →
    alookup (table_pass f ptable d) fk = alookup d fk := by
  intro ptable
  induction ptable with
  | nil => intro d fk _; rfl
  | cons e rest ih =>
    intro d fk hnot
    simp only [List.map_cons, List.mem_cons, not_or] at hnot
    have hstep : table_pass f (e :: rest) d
        = table_pass f rest
            (if (alookup d e.1).isSome then d
             else
               match f e with
               | some v => dictInsert d e.1 v
               | none => d) := rfl
    rw [hstep, ih _ fk hnot.2]
    by_cases hg : (alookup d e.1).isSome
    · rw [if_pos hg]
    · rw [if_neg hg]
      cases hf : f e with
      | some v =>
        show alookup (dictInsert d e.1 v) fk = alookup d fk
        rw [alookup_dictInsert, if_neg hnot.1]
      | none => rfl

theorem table_pass_alookup {V : Type} (f : String × List String → Option V) :
    ∀ (ptable : List (String × List String)) (d : List (String × V))
      (fk : String) (pats : List String),
    (fk, pats) ∈ ptable → (ptable.map Prod.fst).Nodup →
    alookup (table_pass f ptable d) fk
      = match alookup d fk with
        | some v => some v
        | none => f (fk, pats) := by
  intro ptable
  induction ptable with
  | nil => intro d fk pats hmem _; simp at hmem
  | cons e rest ih =>
    intro d fk pats hmem hnodup
    obtain ⟨k0, pats0⟩ := e
    rw [List.map_cons, List.nodup_cons] at hnodup
    have hstep : table_pass f ((k0, pats0) :: rest) d
        = table_pass f rest
            (if (alookup d k0).isSome then d
             else
               match f (k0, pats0) with
               | some v => dictInsert d k0 v
               | none => d) := rfl
    rw [hstep]
    by_cases hk : fk = k0
    · subst hk
      have hpats : pats = pats0 := by
        rcases List.mem_cons.mp hmem with heq | hrest
        · exact (Prod.ext_iff.mp heq).2
        · exact absurd (List.mem_map_of_mem Prod.fst hrest) hnodup.1
      subst hpats
      rw [table_pass_preserve f rest _ fk hnodup.1]
      cases hd : alookup d fk with
      | some w => rw [if_pos (by simp [hd]), hd]
      | none =>
        rw [if_neg (by simp [hd])]
        cases hf : f (fk, pats) with
        | some v =>
          show alookup (dictInsert d fk v) fk = some v
          rw [alookup_dictInsert, if_pos rfl]
        | none => exact hd
    · have hmem2 : (fk, pats) ∈ rest := by
        rcases List.mem_cons.mp hmem with heq | hrest
        · exact absurd (Prod.ext_iff.mp heq).1 hk
        · exact hrest
      rw [ih _ fk pats hmem2 hnodup.2]
      have hpre : alookup
          (if (alookup d k0).isSome then d
           else
             match f (k0, pats0) with
             | some v => dictInsert d k0 v
             | none => d) fk = alookup d fk := by
        by_cases hg : (alookup d k0).isSome
        · rw [if_pos hg]
        · rw [if_neg hg]
          cases hf : f (k0, pats0) with
          | some v =>
            show alookup (dictInsert d k0 v) fk = alookup d fk
            rw [alookup_dictInsert, if_neg hk]
          | none => rfl
      rw [hpre]

theorem pattern_page_pass_eq_table_pass {V : Type} (lineValue : String → Option V)
    (lines : List String) :
    ∀ (ptable : List (String × List String)) (d : List (String × V)),
    pattern_page_pass lineValue ptable d lines
      = table_pass (fun e => page_value lineValue e.2 lines) ptable d := by
  intro ptable
  induction ptable with
  | nil => intro d; rfl
  | cons e rest ih =>
    intro d
    have h1 : pattern_page_pass lineValue (e :: rest) d lines
        = pattern_page_pass lineValue rest
            (if (alookup d e.1).isSome then d
             else e.2.foldl (pattern_try lineValue lines e.1) d) lines := rfl
    have h2 : table_pass (fun e => page_value lineValue e.2 lines) (e :: rest) d
        = table_pass (fun e => page_value lineValue e.2 lines) rest
            (if (alookup d e.1).isSome then d
             else
               match page_value lineValue e.2 lines with
               | some v => dictInsert d e.1 v
               | none => d) := rfl
    rw [h1, h2, ih, pattern_try_foldl]

theorem pages_foldl_alookup {V : Type} (fk : String)
    (pass : List (String × V) → String → List (String × V))
    (passValue : String → Option V)
    (hpass : ∀ (d : List (String × V)) (t : String),
      alookup (pass d t) fk
        = match alookup d fk with
          | some v => some v
          | none => passValue t) :
    ∀ (pages : List String) (d : List (String × V)),
    alookup (pages.foldl pass d) fk
      = match alookup d fk with
        | some v => some v
        | none => pages.findSome? passValue := by
  intro pages
  induction pages with
  | nil => intro d; cases hd : alookup d fk <;> simp [hd]
  | cons t ts ih =>
    intro d
    rw [List.foldl_cons, ih (pass d t), hpass d t]
    cases hd : alookup d fk with
    | some v => simp
    | none =>
      cases hv : passValue t with
      | some v => simp [List.findSome?_cons, hv]
      | none => simp [List.findSome?_cons, hv]

theorem extract_pattern_alookup {V : Type} (lineValue : String → Option V)
    (ptable : List (String × List String)) (hnodup : (ptable.map Prod.fst).Nodup)
    (pages : List String) (fk : String) (pats : List String)
    (hmem : (fk, pats) ∈ ptable) :
    alookup (pages.foldl
        (fun d text => pattern_page_pass lineValue ptable d (pySplitNL text)) []) fk
      = pages.findSome? (fun t => page_value lineValue pats (pySplitNL t)) := by
  have hpass : ∀ (d : List (String × V)) (t : String),
      alookup (pattern_page_pass lineValue ptable d (pySplitNL t)) fk
        = match alookup d fk with
          | some v => some v
          | none => page_value lineValue pats (pySplitNL t) := by
    intro d t
    rw [pattern_page_pass_eq_table_pass]
    exact table_pass_alookup _ ptable d fk pats hmem hnodup
  have h := pages_foldl_alookup fk _ _ hpass pages []
  simpa [alookup] using h

theorem extract_fund_capital_alookup {V : Type}
    (regexParse : String → String → Option V) (searchTexts : List String)
    (fk : String) (rexs : List String)
    (hmem : (fk, rexs) ∈ fund_capital_patterns) :
    alookup (extract_fund_capital_section regexParse searchTexts) fk
      = searchTexts.findSome? (fun t => rexs.findSome? (fun pat => regexParse pat t)) := by
  have hpass : ∀ (d : List (String × V)) (t : String),
      alookup (fund_capital_page_pass regexParse d t) fk
        = match alookup d fk with
          | some v => some v
          | none => rexs.findSome? (fun pat => regexParse pat t) := by
    intro d t
    exact table_pass_alookup _ fund_capital_patterns d fk rexs hmem (by decide)
  have h := pages_foldl_alookup fk _ _ hpass searchTexts []
  simpa [extract_fund_capital_section, alookup] using h

theorem extract_asset_allocation_alookup {V : Type} (lineValue : String → Option V)
    (pages : List String) (fk : String) (pats : List String)
    (hmem : (fk, pats) ∈ asset_allocation_patterns) :
    alookup (extract_asset_allocation_section lineValue pages) fk
      = pages.findSome? (fun t => page_value lineValue pats (pySplitNL t)) :=
  extract_pattern_alookup lineValue _ (by decide) pages fk pats hmem

theorem extract_real_assets_alookup {V : Type} (lineValue : String → Option V)
    (pages : List String) (fk : String) (pats : List String)
    (hmem : (fk, pats) ∈ real_assets_patterns) :
    alookup (extract_real_assets_section lineValue pages) fk
      = pages.findSome? (fun t => page_value lineValue pats (pySplitNL t)) :=
  extract_pattern_alookup lineValue _ (by decide) pages fk pats hmem

theorem extract_bonds_alookup {V : Type} (lineValue : String → Option V)
    (pages : List String) (fk : String) (pats : List String)
    (hmem : (fk, pats) ∈ bonds_patterns) :
    alookup (extract_bonds_section lineValue pages) fk
      = pages.findSome? (fun t => page_value lineValue pats (pySplitNL t)) :=
  extract_pattern_alookup lineValue _ (by decide) pages fk pats hmem

/-- C2 counterexample: in `extract_real_assets_section` the `break` only
exits the line loop, so within one page a later pattern overwrites an
already-assigned field. For the field `TRADITIONALREALESTATE` (patterns
`["traditional real estate", "real estate"]`) on a page whose lines are
`"growth in real estate 12"` and `"traditional real estate 45"`, the first
pattern parses 45 first (its first matching line is the second line), but
the second pattern then overwrites with 12, so the returned value is not
the first non-null value parsed. `lineValue` is instantiated with exactly
what `re.findall(r'\b(\d{1,2}(?:\.\d)?)\b')` + the 0..100 filter returns
on these two lines. -/
theorem C2_pattern_overwrite_counterexample :
    pattern_attempt
        (fun line =>
          if line == "growth in real estate 12" then some (12 : Int)
          else if line == "traditional real estate 45" then some 45 else none)
        ["growth in real estate 12", "traditional real estate 45"]
        "traditional real estate" = some 45
      ∧ alookup
          (extract_real_assets_section
            (fun line =>
              if line == "growth in real estate 12" then some (12 : Int)
              else if line == "traditional real estate 45" then some 45 else none)
            ["growth in real estate 12\ntraditional real estate 45"])
          "AP2.TRADITIONALREALESTATE.ACTUALALLOCATION.NONE.A.1@AP2" = some 12
      ∧ (12 : Int) ≠ 45 := by
  refine ⟨by decide, by decide, by decide⟩

/-- C2 (amended): the cross-page half of the claim holds for all four
extractors — a field resolved on an earlier page is never reassigned by a
later page — and `extract_fund_capital_section` also keeps the first
non-null parse within a page (its `break` leaves the pattern loop). In the
asset-allocation, real-assets and bonds extractors, however, the `break`
only exits the line loop, so within the first page that resolves a field a
later pattern overwrites an earlier one: the returned value is, on the
first page where any pattern of the field succeeds, the LAST pattern whose
first matching line yields a valid number. -/
theorem C2_assignment_discipline {V : Type}
    (regexParse : String → String → Option V) (lineValue : String → Option V)
    (searchTexts pages : List String) (fk : String) :
    (∀ rexs, (fk, rexs) ∈ fund_capital_patterns →
        alookup (extract_fund_capital_section regexParse searchTexts) fk
          = searchTexts.findSome? (fun t => rexs.findSome? (fun pat => regexParse pat t)))
      ∧ (∀ pats, (fk, pats) ∈ asset_allocation_patterns →
          alookup (extract_asset_allocation_section lineValue pages) fk
            = pages.findSome? (fun t => page_value lineValue pats (pySplitNL t)))
      ∧ (∀ pats, (fk, pats) ∈ real_assets_patterns →
          alookup (extract_real_assets_section lineValue pages) fk
            = pages.findSome? (fun t => page_value lineValue pats (pySplitNL t)))
      ∧ (∀ pats, (fk, pats) ∈ bonds_patterns →
          alookup (extract_bonds_section lineValue pages) fk
            = pages.findSome? (fun t => page_value lineValue pats (pySplitNL t)))
      ∧ (∀ rexs v more, (fk, rexs) ∈ fund_capital_patterns →
          alookup (extract_fund_capital_section regexParse searchTexts) fk = some v →
          alookup (extract_fund_capital_section regexParse (searchTexts ++ more)) fk
            = some v)
      ∧ (∀ pats v more, (fk, pats) ∈ asset_allocation_patterns →
          alookup (extract_asset_allocation_section lineValue pages) fk = some v →
          alookup (extract_asset_allocation_section lineValue (pages ++ more)) fk
            = some v)
      ∧ (∀ pats v more, (fk, pats) ∈ real_assets_patterns →
          alookup (extract_real_assets_section lineValue pages) fk = some v →
          alookup (extract_real_assets_section lineValue (pages ++ more)) fk = some v)
      ∧ (∀ pats v more, (fk, pats) ∈ bonds_patterns →
          alookup (extract_bonds_section lineValue pages) fk = some v →
          alookup (extract_bonds_section lineValue (pages ++ more)) fk = some v) := by
  refine ⟨fun rexs hmem => extract_fund_capital_alookup regexParse searchTexts fk rexs hmem,
    fun pats hmem => extract_asset_allocation_alookup lineValue pages fk pats hmem,
    fun pats hmem => extract_real_assets_alookup lineValue pages fk pats hmem,
    fun pats hmem => extract_bonds_alookup lineValue pages fk pats hmem,
    ?_, ?_, ?_, ?_⟩
  · intro rexs v more hmem hv
    rw [extract_fund_capital_alookup regexParse searchTexts fk rexs hmem] at hv
    rw [extract_fund_capital_alookup regexParse (searchTexts ++ more) fk rexs hmem,
      List.findSome?_append, hv]
    rfl
  · intro pats v more hmem hv
    rw [extract_asset_allocation_alookup lineValue pages fk pats hmem] at hv
    rw [extract_asset_allocation_alookup lineValue (pages ++ more) fk pats hmem,
      List.findSome?_append, hv]
    rfl
  · intro pats v more hmem hv
    rw [extract_real_assets_alookup lineValue pages fk pats hmem] at hv
    rw [extract_real_assets_alookup lineValue (pages ++ more) fk pats hmem,
      List.findSome?_append, hv]
    rfl
  · intro pats v more hmem hv
    rw [extract_bonds_alookup lineValue pages fk pats hmem] at hv
    rw [extract_bonds_alookup lineValue (pages ++ more) fk pats hmem,
      List.findSome?_append, hv]
    rfl

/-- Concrete run of `C2_assignment_discipline` on the counterexample page:
the real-assets value for `TRADITIONALREALESTATE` equals that page's
last-successful-pattern value. -/
theorem C2_assignment_discipline_witness :
    ("AP2.TRADITIONALREALESTATE.ACTUALALLOCATION.NONE.A.1@AP2",
        ["traditional real estate", "real estate"]) ∈ real_assets_patterns
      ∧ alookup
          (extract_real_assets_section
            (fun line =>
              if line == "growth in real estate 12" then some (12 : Int)
              else if line == "traditional real estate 45" then some 45 else none)
            ["growth in real estate 12\ntraditional real estate 45"])
          "AP2.TRADITIONALREALESTATE.ACTUALALLOCATION.NONE.A.1@AP2"
        = ["growth in real estate 12\ntraditional real estate 45"].findSome?
            (fun t => page_value
              (fun line =>
                if line == "growth in real estate 12" then some (12 : Int)
                else if line == "traditional real estate 45" then some 45 else none)
              ["traditional real estate", "real estate"] (pySplitNL t)) :=
  ⟨by decide,
    (C2_assignment_discipline
        (fun _ _ => (none : Option Int))
        (fun line =>
          if line == "growth in real estate 12" then some (12 : Int)
          else if line == "traditional real estate 45" then some 45 else none)
        [] ["growth in real estate 12\ntraditional real estate 45"]
        "AP2.TRADITIONALREALESTATE.ACTUALALLOCATION.NONE.A.1@AP2").2.2.1
      ["traditional real estate", "real estate"] (by decide)⟩

/-! ## C4: retry behaviour of the two LLM extractors -/

theorem retry_go_all_none {A : Type} (attempt : Nat → Option A) :
    ∀ (fuel i : Nat), (∀ k, i ≤ k → k < i + fuel → attempt k = none) →
    retry_go attempt i fuel = (none, i + fuel) := by
  intro fuel
  induction fuel with
  | zero => intro i _; simp [retry_go]
  | succ fuel ih =>
    intro i h
    have h0 : attempt i = none := h i le_rfl (by omega)
    simp only [retry_go, h0]
    rw [ih (i + 1) (fun k hk1 hk2 => h k (by omega) (by omega))]
    have : i + 1 + fuel = i + (fuel + 1) := by omega
    rw [this]

/-- C4 counterexample: `LLMExtractor.extract_annual_data` does not retry.
When its (first and only) call fails to parse, it makes exactly one call —
not `max_retries = 3` as the claim states — while
`extract_section_with_precision` really does make 3 calls before giving
up. -/
theorem C4_no_retry_counterexample :
    (extract_annual_data (fun _ => none)).2 = 1
      ∧ (extract_annual_data (fun _ => none)).2 ≠ perfect_default_max_retries
      ∧ (extract_section_with_precision (fun _ => none) perfect_default_max_retries).2 = 3 :=
  ⟨rfl, by decide, rfl⟩

/-- C4 (amended): when every attempt fails to parse,
`PerfectLLMParser.extract_section_with_precision` makes exactly
`max_retries` calls (default 3) and then returns the empty mapping instead
of raising, while `LLMExtractor.extract_annual_data` makes a single call
and returns the empty mapping on its failure, also without raising. -/
theorem C4_retry_then_empty (m : Nat)
    (attempt : Nat → Option (List (String × JsonVal)))
    (h : ∀ k, k < m → attempt k = none) :
    extract_section_with_precision attempt m = ([], m)
      ∧ ∀ calls : Nat → Option (List (String × JsonVal)),
          calls 0 = none → extract_annual_data calls = ([], 1) := by
  constructor
  · unfold extract_section_with_precision
    rw [retry_go_all_none attempt m 0 (fun k _ hk2 => h k (by omega))]
    simp
  · intro calls hc
    simp [extract_annual_data, hc]

/-- Concrete run of `C4_retry_then_empty` at the default retry count. -/
theorem C4_retry_then_empty_witness :
    extract_section_with_precision (fun _ => none) perfect_default_max_retries
        = ([], 3)
      ∧ extract_annual_data (fun _ => none) = ([], 1) := by
  have h := C4_retry_then_empty 3 (fun _ => none) (fun k _ => rfl)
  exact ⟨h.1, h.2 (fun _ => none) rfl⟩

/-! ## C8: JSON payload located between the first { and the last } -/

theorem pyFindChar_spec (c : Char) :
    ∀ (cs : List Char) (i : Nat), pyFindChar c cs = some i →
      cs[i]? = some c ∧ c ∉ cs.take i := by
  intro cs
  induction cs with
  | nil => intro i h; simp [pyFindChar] at h
  | cons x xs ih =>
    intro i h
    by_cases hx : x = c
    · simp only [pyFindChar, if_pos hx, Option.some.injEq] at h
      subst h
      simp [hx]
    · simp only [pyFindChar, if_neg hx, Option.map_eq_some'] at h
      obtain ⟨i', hi', rfl⟩ := h
      have := ih i' hi'
      refine ⟨by simpa using this.1, ?_⟩
      simp only [List.take_succ_cons, List.mem_cons, not_or]
      exact ⟨fun hh => hx hh.symm, this.2⟩

theorem pyRfindChar_none (c : Char) :
    ∀ cs : List Char, pyRfindChar c cs = none → c ∉ cs := by
  intro cs
  induction cs with
  | nil => intro _; simp
  | cons x xs ih =>
    intro h
    simp only [pyRfindChar] at h
    cases hr : pyRfindChar c xs with
    | some j => rw [hr] at h; exact Option.noConfusion h
    | none =>
      rw [hr] at h
      by_cases hx : x = c
      · rw [if_pos hx] at h; exact Option.noConfusion h
      · simp only [List.mem_cons, not_or]
        exact ⟨fun hh => hx hh.symm, ih hr⟩

theorem pyRfindChar_spec (c : Char) :
    ∀ (cs : List Char) (j : Nat), pyRfindChar c cs = some j →
      cs[j]? = some c ∧ c ∉ cs.drop (j + 1) := by
  intro cs
  induction cs with
  | nil => intro j h; simp [pyRfindChar] at h
  | cons x xs ih =>
    intro j h
    simp only [pyRfindChar] at h
    cases hr : pyRfindChar c xs with
    | some j' =>
      rw [hr] at h
      simp only [Option.some.injEq] at h
      subst h
      have := ih j' hr
      exact ⟨by simpa using this.1, by simpa using this.2⟩
    | none =>
      rw [hr] at h
      by_cases hx : x = c
      · rw [if_pos hx] at h
        simp only [Option.some.injEq] at h
        subst h
        refine ⟨by simp [hx], ?_⟩
        simpa using pyRfindChar_none c xs hr
      · rw [if_neg hx] at h
        exact Option.noConfusion h

/-- C8: after fence stripping, whenever a `{` occurs and a `}` occurs
strictly after the first `{`, the parsed payload is exactly the inclusive
substring from the first `{` to the last `}`: position `i` holds `{` with no
`{` before it, position `j` holds `}` with no `}` after it, and the payload
is the slice `content[i : j+1]`, which begins with that `{` and ends with
that `}`. This is the extraction step shared by `LLMExtractor._call_llm`
and `PerfectLLMParser.extract_section_with_precision`. -/
theorem C8_json_payload_braces (cs : List Char) (i j : Nat)
    (h1 : pyFindChar openBrace cs = some i)
    (h2 : pyRfindChar closeBrace cs = some j)
    (hij : i < j) :
    extract_json_payload cs = (cs.drop i).take (j + 1 - i)
      ∧ cs[i]? = some openBrace
      ∧ openBrace ∉ cs.take i
      ∧ cs[j]? = some closeBrace
      ∧ closeBrace ∉ cs.drop (j + 1)
      ∧ (extract_json_payload cs).length = j + 1 - i
      ∧ (extract_json_payload cs)[0]? = some openBrace
      ∧ (extract_json_payload cs)[j - i]? = some closeBrace := by
  have hi := pyFindChar_spec openBrace cs i h1
  have hj := pyRfindChar_spec closeBrace cs j h2
  have hjlen : j < cs.length := by
    by_contra hge
    rw [List.getElem?_eq_none (by omega)] at hj
    exact Option.noConfusion hj.1
  have hpay : extract_json_payload cs = (cs.drop i).take (j + 1 - i) := by
    simp [extract_json_payload, h1, h2, hij]
  refine ⟨hpay, hi.1, hi.2, hj.1, hj.2, ?_, ?_, ?_⟩
  · rw [hpay, List.length_take, List.length_drop]
    omega
  · rw [hpay, List.getElem?_take, if_pos (by omega), List.getElem?_drop]
    simpa using hi.1
  · rw [hpay, List.getElem?_take, if_pos (by omega), List.getElem?_drop]
    have harith : i + (j - i) = j := by omega
    rw [harith]
    exact hj.1

/-- Concrete run of `C8_json_payload_braces`: noise before the first `{`
and between the two `}`s is discarded, the payload spans first `{` to last
`}`. -/
theorem C8_json_payload_braces_witness :
    pyFindChar openBrace ['a', openBrace, 'x', closeBrace, 'y', closeBrace] = some 1
      ∧ pyRfindChar closeBrace ['a', openBrace, 'x', closeBrace, 'y', closeBrace] = some 5
      ∧ extract_json_payload ['a', openBrace, 'x', closeBrace, 'y', closeBrace]
          = (['a', openBrace, 'x', closeBrace, 'y', closeBrace].drop 1).take (5 + 1 - 1) :=
  ⟨by decide, by decide,
    (C8_json_payload_braces _ 1 5 (by decide) (by decide) (by decide)).1⟩

/-! ## C9: total year extraction from filenames -/

theorem isDigitRunAt_length (cs : List Char) (i : Nat)
    (h : isDigitRunAt cs i = true) : i + 4 ≤ cs.length := by
  simp only [isDigitRunAt, Bool.and_eq_true, beq_iff_eq, List.length_take,
    List.length_drop] at h
  omega

theorem is20RunAt_length (cs : List Char) (i : Nat)
    (h : is20RunAt cs i = true) : i + 4 ≤ cs.length := by
  unfold is20RunAt at h
  split at h
  next a b c d heq =>
    have hl : ((cs.drop i).take 4).length = 4 := by rw [heq]; rfl
    rw [List.length_take, List.length_drop] at hl
    omega
  next => exact Bool.noConfusion h

theorem isDigitRunAt_succ (x : Char) (xs : List Char) (k : Nat) :
    isDigitRunAt (x :: xs) (k + 1) = isDigitRunAt xs k := by
  simp [isDigitRunAt, List.drop_succ_cons]

theorem is20RunAt_succ (x : Char) (xs : List Char) (k : Nat) :
    is20RunAt (x :: xs) (k + 1) = is20RunAt xs k := by
  simp [is20RunAt, List.drop_succ_cons]

theorem runValueAt_succ (x : Char) (xs : List Char) (k : Nat) :
    runValueAt (x :: xs) (k + 1) = runValueAt xs k := by
  simp [runValueAt, List.drop_succ_cons]

theorem isDigitRunAt_zero (a b c d : Char) (rest : List Char) :
    isDigitRunAt (a :: b :: c :: d :: rest) 0
      = (a.isDigit && b.isDigit && c.isDigit && d.isDigit) := by
  simp [isDigitRunAt, allDigits, Bool.and_assoc]

theorem is20RunAt_zero (a b c d : Char) (rest : List Char) :
    is20RunAt (a :: b :: c :: d :: rest) 0
      = (a == '2' && b == '0' && c.isDigit && d.isDigit) := rfl

theorem runValueAt_zero (a b c d : Char) (rest : List Char) :
    runValueAt (a :: b :: c :: d :: rest) 0 = digitsToNat [a, b, c, d] := rfl

theorem findFourDigitRun_eq_first (cs : List Char) : ∀ i : Nat,
    isDigitRunAt cs i = true → (∀ k, k < i → isDigitRunAt cs k = false) →
    findFourDigitRun cs = some (runValueAt cs i) := by
  induction cs using findFourDigitRun.induct with
  | case1 a b c d rest hd =>
    intro i hrun hmin
    cases i with
    | zero =>
      rw [runValueAt_zero]
      simp [findFourDigitRun, hd]
    | succ k =>
      exfalso
      have h0 := hmin 0 (Nat.succ_pos k)
      rw [isDigitRunAt_zero, hd] at h0
      exact Bool.noConfusion h0
  | case2 a b c d rest hd ih =>
    intro i hrun hmin
    cases i with
    | zero =>
      exfalso
      rw [isDigitRunAt_zero] at hrun
      exact hd hrun
    | succ k =>
      have hscan : findFourDigitRun (a :: b :: c :: d :: rest)
          = findFourDigitRun (b :: c :: d :: rest) := by
        simp [findFourDigitRun, hd]
      rw [hscan, runValueAt_succ]
      rw [isDigitRunAt_succ] at hrun
      refine ih k hrun ?_
      intro k' hk
      have := hmin (k' + 1) (by omega)
      rwa [isDigitRunAt_succ] at this
  | case3 t ht =>
    intro i hrun hmin
    exfalso
    have hlen := isDigitRunAt_length t i hrun
    rcases t with _ | ⟨a, _ | ⟨b, _ | ⟨c, _ | ⟨d, r⟩⟩⟩⟩
    · simp at hlen
    · simp at hlen
    · simp at hlen
    · simp at hlen
    · exact ht a b c d r rfl

theorem findFourDigitRun_has_run (cs : List Char) (v : Nat)
    (h : findFourDigitRun cs = some v) : ∃ i, isDigitRunAt cs i = true := by
  induction cs using findFourDigitRun.induct with
  | case1 a b c d rest hd =>
    exact ⟨0, by rw [isDigitRunAt_zero]; exact hd⟩
  | case2 a b c d rest hd ih =>
    have h' : findFourDigitRun (b :: c :: d :: rest) = some v := by
      simpa [findFourDigitRun, hd] using h
    obtain ⟨i, hi⟩ := ih h'
    exact ⟨i + 1, by rwa [isDigitRunAt_succ]⟩
  | case3 t ht =>
    exfalso
    rcases t with _ | ⟨a, _ | ⟨b, _ | ⟨c, _ | ⟨d, r⟩⟩⟩⟩
    · exact Option.noConfusion h
    · exact Option.noConfusion h
    · exact Option.noConfusion h
    · exact Option.noConfusion h
    · exact ht a b c d r rfl

theorem find20xxRun_eq_first (cs : List Char) : ∀ i : Nat,
    is20RunAt cs i = true → (∀ k, k < i → is20RunAt cs k = false) →
    find20xxRun cs = some (runValueAt cs i) := by
  induction cs using find20xxRun.induct with
  | case1 a b c d rest hd =>
    intro i hrun hmin
    cases i with
    | zero =>
      rw [runValueAt_zero]
      simp [find20xxRun, hd]
    | succ k =>
      exfalso
      have h0 := hmin 0 (Nat.succ_pos k)
      rw [is20RunAt_zero, hd] at h0
      exact Bool.noConfusion h0
  | case2 a b c d rest hd ih =>
    intro i hrun hmin
    cases i with
    | zero =>
      exfalso
      rw [is20RunAt_zero] at hrun
      exact hd hrun
    | succ k =>
      have hscan : find20xxRun (a :: b :: c :: d :: rest)
          = find20xxRun (b :: c :: d :: rest) := by
        simp [find20xxRun, hd]
      rw [hscan, runValueAt_succ]
      rw [is20RunAt_succ] at hrun
      refine ih k hrun ?_
      intro k' hk
      have := hmin (k' + 1) (by omega)
      rwa [is20RunAt_succ] at this
  | case3 t ht =>
    intro i hrun hmin
    exfalso
    have hlen := is20RunAt_length t i hrun
    rcases t with _ | ⟨a, _ | ⟨b, _ | ⟨c, _ | ⟨d, r⟩⟩⟩⟩
    · simp at hlen
    · simp at hlen
    · simp at hlen
    · simp at hlen
    · exact ht a b c d r rfl

theorem find20xxRun_has_run (cs : List Char) (v : Nat)
    (h : find20xxRun cs = some v) : ∃ i, is20RunAt cs i = true := by
  induction cs using find20xxRun.induct with
  | case1 a b c d rest hd =>
    exact ⟨0, by rw [is20RunAt_zero]; exact hd⟩
  | case2 a b c d rest hd ih =>
    have h' : find20xxRun (b :: c :: d :: rest) = some v := by
      simpa [find20xxRun, hd] using h
    obtain ⟨i, hi⟩ := ih h'
    exact ⟨i + 1, by rwa [is20RunAt_succ]⟩
  | case3 t ht =>
    exfalso
    rcases t with _ | ⟨a, _ | ⟨b, _ | ⟨c, _ | ⟨d, r⟩⟩⟩⟩
    · exact Option.noConfusion h
    · exact Option.noConfusion h
    · exact Option.noConfusion h
    · exact Option.noConfusion h
    · exact ht a b c d r rfl

/-- C9: both year extractors are total functions of the filename (never
raise). `RobustPDFParser.extract_year_from_filename` returns the first
4-digit number in the basename when it lies in `[2000, now + 1]` and the
current year otherwise (also when no 4-digit number occurs);
`PerfectLLMParser.extract_year_from_filename` returns the first number
matching `20` followed by two digits, and the current year when there is
none. -/
theorem C9_year_extraction (now : Int) (filename : String) :
    ((∀ i : Nat, isDigitRunAt (pyBasename filename).data i = true →
        (∀ k, k < i → isDigitRunAt (pyBasename filename).data k = false) →
        extract_year_from_filename now filename
          = (if 2000 ≤ (runValueAt (pyBasename filename).data i : Int)
                ∧ (runValueAt (pyBasename filename).data i : Int) ≤ now + 1
             then (runValueAt (pyBasename filename).data i : Int) else now))
      ∧ ((∀ k, isDigitRunAt (pyBasename filename).data k = false) →
          extract_year_from_filename now filename = now))
    ∧ ((∀ i : Nat, is20RunAt (pyBasename filename).data i = true →
        (∀ k, k < i → is20RunAt (pyBasename filename).data k = false) →
        perfect_extract_year_from_filename now filename
          = (runValueAt (pyBasename filename).data i : Int))
      ∧ ((∀ k, is20RunAt (pyBasename filename).data k = false) →
          perfect_extract_year_from_filename now filename = now)) := by
  refine ⟨⟨?_, ?_⟩, ?_, ?_⟩
  · intro i hrun hmin
    unfold extract_year_from_filename
    rw [findFourDigitRun_eq_first (pyBasename filename).data i hrun hmin]
  · intro hall
    unfold extract_year_from_filename
    cases hscan : findFourDigitRun (pyBasename filename).data with
    | none => rfl
    | some v =>
      exfalso
      obtain ⟨i, hi⟩ := findFourDigitRun_has_run _ v hscan
      rw [hall i] at hi
      exact Bool.noConfusion hi
  · intro i hrun hmin
    unfold perfect_extract_year_from_filename
    rw [find20xxRun_eq_first (pyBasename filename).data i hrun hmin]
  · intro hall
    unfold perfect_extract_year_from_filename
    cases hscan : find20xxRun (pyBasename filename).data with
    | none => rfl
    | some v =>
      exfalso
      obtain ⟨i, hi⟩ := find20xxRun_has_run _ v hscan
      rw [hall i] at hi
      exact Bool.noConfusion hi

/-- Concrete run of `C9_year_extraction`: the first 4-digit number of
`reports/AP2_2024_annual.pdf`'s basename is 2024 at offset 4, it is in
range for `now = 2025`, and both extractors return it. -/
theorem C9_year_extraction_witness :
    isDigitRunAt (pyBasename "reports/AP2_2024_annual.pdf").data 4 = true
      ∧ extract_year_from_filename 2025 "reports/AP2_2024_annual.pdf"
          = (if 2000 ≤ (runValueAt (pyBasename "reports/AP2_2024_annual.pdf").data 4 : Int)
                ∧ (runValueAt (pyBasename "reports/AP2_2024_annual.pdf").data 4 : Int) ≤ 2025 + 1
             then (runValueAt (pyBasename "reports/AP2_2024_annual.pdf").data 4 : Int) else 2025)
      ∧ perfect_extract_year_from_filename 2025 "reports/AP2_2024_annual.pdf"
          = (runValueAt (pyBasename "reports/AP2_2024_annual.pdf").data 4 : Int) :=
  ⟨by decide,
    (C9_year_extraction 2025 "reports/AP2_2024_annual.pdf").1.1 4 (by decide)
      (by decide),
    (C9_year_extraction 2025 "reports/AP2_2024_annual.pdf").2.1 4 (by decide)
      (by decide)⟩

/-! ## C10: bonds prefix stripping and year-row assembly -/

theorem strip_bonds_keys {V : Type} (marker : String) (data : List (String × V)) :
    ∀ (acc : List (String × V) × List (String × V)) (ck : String),
    ck ∈ (data.foldl (strip_bonds_step marker) acc).1.map Prod.fst →
    ck ∈ acc.1.map Prod.fst
      ∨ ∃ k0, k0 ∈ data.map Prod.fst ∧ pyStartsWith k0 marker = true
          ∧ ck = pyDropChars 5 k0 := by
  induction data with
  | nil => intro acc ck h; exact Or.inl h
  | cons kv rest ih =>
    intro acc ck h
    rw [List.foldl_cons] at h
    rcases ih (strip_bonds_step marker acc kv) ck h with hin | ⟨k0, hk0, hm, hck⟩
    · cases hp : pyStartsWith kv.1 marker with
      | true =>
        simp only [strip_bonds_step, hp, if_pos] at hin
        rcases (keys_dictInsert _ _ _ _).mp hin with heq | hmem
        · exact Or.inr ⟨kv.1, by simp, hp, heq⟩
        · exact Or.inl hmem
      | false =>
        simp only [strip_bonds_step, hp, Bool.false_eq_true, if_neg,
          not_false_eq_true] at hin
        exact Or.inl hin
    · exact Or.inr ⟨k0, by simp [hk0], hm, hck⟩

theorem fold_pd_keys {V : Type} (marker : String)
    (secData : String → List (String × V)) (ck : String)
    (h : ck ∈ (sections_list.foldl
        (fun acc s => all_sections_step marker acc s (secData s)) ([], [])).1.map Prod.fst) :
    ∃ k0, k0 ∈ (secData "bonds").map Prod.fst ∧ pyStartsWith k0 marker = true
      ∧ ck = pyDropChars 5 k0 := by
  have hfst : ∀ (acc : List (String × V) × List (String × V)) (s : String)
      (data : List (String × V)), s ≠ "bonds" →
      (all_sections_step marker acc s data).1 = acc.1 := by
    intro acc s data hs
    simp [all_sections_step, hs]
  simp only [sections_list, List.foldl_cons, List.foldl_nil] at h
  rw [show all_sections_step marker
        (all_sections_step marker
          (all_sections_step marker
            (all_sections_step marker ([], []) "fund_capital" (secData "fund_capital"))
            "asset_allocation" (secData "asset_allocation"))
          "real_assets" (secData "real_assets"))
        "bonds" (secData "bonds")
      = (secData "bonds").foldl (strip_bonds_step marker)
          (all_sections_step marker
            (all_sections_step marker
              (all_sections_step marker ([], []) "fund_capital" (secData "fund_capital"))
              "asset_allocation" (secData "asset_allocation"))
            "real_assets" (secData "real_assets")) from by simp [all_sections_step]] at h
  rcases strip_bonds_keys marker (secData "bonds") _ ck h with hin | hgood
  · exfalso
    rw [hfst _ _ _ (by decide), hfst _ _ _ (by decide), hfst _ _ _ (by decide)] at hin
    simp at hin
  · exact hgood

theorem strip_bonds_keys_mono {V : Type} (marker : String) (data : List (String × V)) :
    ∀ (acc : List (String × V) × List (String × V)) (ck : String),
    ck ∈ acc.1.map Prod.fst →
    ck ∈ (data.foldl (strip_bonds_step marker) acc).1.map Prod.fst := by
  induction data with
  | nil => intro acc ck h; exact h
  | cons kv rest ih =>
    intro acc ck h
    rw [List.foldl_cons]
    apply ih
    cases hp : pyStartsWith kv.1 marker with
    | true =>
      have hstep : strip_bonds_step marker acc kv
          = (dictInsert acc.1 (pyDropChars 5 kv.1) kv.2, acc.2) := by
        simp [strip_bonds_step, hp]
      rw [hstep]
      exact (keys_dictInsert _ _ _ _).mpr (Or.inr h)
    | false =>
      have hstep : strip_bonds_step marker acc kv
          = (acc.1, dictInsert acc.2 kv.1 kv.2) := by
        simp [strip_bonds_step, hp]
      rw [hstep]
      exact h

theorem strip_bonds_keys_complete {V : Type} (marker : String)
    (data : List (String × V)) :
    ∀ (acc : List (String × V) × List (String × V)) (k0 : String),
    k0 ∈ data.map Prod.fst → pyStartsWith k0 marker = true →
    pyDropChars 5 k0 ∈ (data.foldl (strip_bonds_step marker) acc).1.map Prod.fst := by
  induction data with
  | nil => intro acc k0 h _; simp at h
  | cons kv rest ih =>
    intro acc k0 hmem hpre
    rw [List.foldl_cons]
    simp only [List.map_cons, List.mem_cons] at hmem
    rcases hmem with heq | hrest
    · apply strip_bonds_keys_mono
      subst heq
      have hstep : strip_bonds_step marker acc kv
          = (dictInsert acc.1 (pyDropChars 5 kv.1) kv.2, acc.2) := by
        simp [strip_bonds_step, hpre]
      rw [hstep]
      exact (keys_dictInsert _ _ _ _).mpr (Or.inl rfl)
    · exact ih (strip_bonds_step marker acc kv) k0 hrest hpre

theorem sections_fold_eq_bonds {V : Type} (marker : String)
    (secData : String → List (String × V)) :
    sections_list.foldl (fun acc s => all_sections_step marker acc s (secData s)) ([], [])
      = (secData "bonds").foldl (strip_bonds_step marker)
          (all_sections_step marker
            (all_sections_step marker
              (all_sections_step marker ([], []) "fund_capital" (secData "fund_capital"))
              "asset_allocation" (secData "asset_allocation"))
            "real_assets" (secData "real_assets")) := by
  simp only [sections_list, List.foldl_cons, List.foldl_nil]
  rw [show ∀ acc : List (String × V) × List (String × V),
      all_sections_step marker acc "bonds" (secData "bonds")
        = (secData "bonds").foldl (strip_bonds_step marker) acc from
    fun acc => by simp [all_sections_step]]

theorem assemble_keys_sublist {V : Type} (p c : Int) (pd cd : List (String × V)) :
    List.Sublist (((if pd.isEmpty then [] else [(p, pd)])
        ++ (if cd.isEmpty then [] else [(c, cd)])).map Prod.fst) [p, c] := by
  cases pd.isEmpty <;> cases cd.isEmpty <;> simp

theorem assemble_nonempty {V : Type} (p c : Int) (pd cd : List (String × V)) :
    ∀ x ∈ (if pd.isEmpty then [] else [(p, pd)])
        ++ (if cd.isEmpty then [] else [(c, cd)]), x.2 ≠ [] := by
  intro x hx
  cases h1 : pd.isEmpty <;> cases h2 : cd.isEmpty <;>
    rw [h1, h2] at hx <;> simp at hx
  · rcases hx with rfl | rfl
    · simp only [ne_eq]
      intro hnil
      rw [hnil] at h1
      simp at h1
    · simp only [ne_eq]
      intro hnil
      rw [hnil] at h2
      simp at h2
  · subst hx
    simp only [ne_eq]
    intro hnil
    rw [hnil] at h1
    simp at h1
  · subst hx
    simp only [ne_eq]
    intro hnil
    rw [hnil] at h2
    simp at h2

theorem assemble_prev_mem {V : Type} (p c : Int) (pd cd pd' : List (String × V))
    (hne : p ≠ c)
    (hmem : (p, pd') ∈ (if pd.isEmpty then [] else [(p, pd)])
        ++ (if cd.isEmpty then [] else [(c, cd)])) : pd' = pd := by
  cases h1 : pd.isEmpty <;> cases h2 : cd.isEmpty <;>
    rw [h1, h2] at hmem <;> simp at hmem
  · rcases hmem with h | ⟨hpc, _⟩
    · exact h
    · exact absurd hpc hne
  · exact hmem
  · exact absurd hmem.1 hne

/-- C10: in `extract_all_sections`, (a) the returned mapping has at most two
year keys, drawn from previous year and current year in that order, (b) a
year row is present only when its data is non-empty, (c) every key of the
previous-year row arises from a bonds-section key that starts with the
previous-year marker by stripping exactly its first 5 characters (`key[5:]`),
(d) conversely, EVERY bonds-section key that starts with the previous-year
marker lands, with exactly its first 5 characters stripped, among the keys
of the previous-year row (which is then necessarily present), and (e) that
5-character strip recovers the unprefixed identifier exactly when the
previous year's digits have length 4 — for any other marker length the
recovery fails, witnessed by a 3-digit year. -/
theorem C10_bonds_split_and_year_rows {V : Type} (currentYear : Int)
    (secData : String → List (String × V)) :
    List.Sublist ((extract_all_sections currentYear secData).map Prod.fst)
        [currentYear - 1, currentYear]
      ∧ (∀ p ∈ extract_all_sections currentYear secData, p.2 ≠ [])
      ∧ (∀ pd', (currentYear - 1, pd') ∈ extract_all_sections currentYear secData →
          ∀ ck ∈ pd'.map Prod.fst,
            ∃ k0, k0 ∈ (secData "bonds").map Prod.fst
              ∧ pyStartsWith k0 (yearKeyMarker (currentYear - 1)) = true
              ∧ ck = pyDropChars 5 k0)
      ∧ (∀ k0, k0 ∈ (secData "bonds").map Prod.fst →
          pyStartsWith k0 (yearKeyMarker (currentYear - 1)) = true →
          ∃ pd', (currentYear - 1, pd') ∈ extract_all_sections currentYear secData
            ∧ pyDropChars 5 k0 ∈ pd'.map Prod.fst)
      ∧ (∀ ys base : String, ys.length = 4 →
          pyDropChars 5 (ys ++ "_" ++ base) = base)
      ∧ (∃ ys base : String, ys.length ≠ 4
          ∧ pyDropChars 5 (ys ++ "_" ++ base) ≠ base) := by
  rcases hfold : sections_list.foldl
      (fun acc s => all_sections_step (yearKeyMarker (currentYear - 1)) acc s (secData s))
      ([], []) with ⟨pd, cd⟩
  have hR : extract_all_sections currentYear secData
      = (if pd.isEmpty then [] else [(currentYear - 1, pd)])
        ++ (if cd.isEmpty then [] else [(currentYear, cd)]) := by
    simp only [extract_all_sections]
    rw [hfold]
  refine ⟨?_, ?_, ?_, ?_, ?_, ?_⟩
  · rw [hR]
    exact assemble_keys_sublist _ _ pd cd
  · rw [hR]
    exact assemble_nonempty _ _ pd cd
  · intro pd' hmem ck hck
    rw [hR] at hmem
    have hne : currentYear - 1 ≠ currentYear := by omega
    have hpd : pd' = pd := assemble_prev_mem _ _ pd cd pd' hne hmem
    subst hpd
    apply fold_pd_keys (yearKeyMarker (currentYear - 1)) secData ck
    rw [hfold]
    exact hck
  · intro k0 hk0 hpre
    have hfold2 := hfold
    rw [sections_fold_eq_bonds (yearKeyMarker (currentYear - 1)) secData] at hfold2
    have hkey : pyDropChars 5 k0 ∈ pd.map Prod.fst := by
      have hc := strip_bonds_keys_complete (yearKeyMarker (currentYear - 1))
        (secData "bonds")
        (all_sections_step (yearKeyMarker (currentYear - 1))
          (all_sections_step (yearKeyMarker (currentYear - 1))
            (all_sections_step (yearKeyMarker (currentYear - 1)) ([], [])
              "fund_capital" (secData "fund_capital"))
            "asset_allocation" (secData "asset_allocation"))
          "real_assets" (secData "real_assets")) k0 hk0 hpre
      rw [hfold2] at hc
      exact hc
    have hne : pd.isEmpty = false := by
      cases pd with
      | nil => simp at hkey
      | cons a l => rfl
    refine ⟨pd, ?_, hkey⟩
    rw [hR, hne]
    simp
  · intro ys base hlen
    have hd4 : ys.data.length = 4 := hlen
    unfold pyDropChars
    have hdata : (ys ++ "_" ++ base).data = (ys.data ++ ['_']) ++ base.data := by
      simp [String.data_append]
    rw [hdata]
    have hl : (ys.data ++ ['_']).length = 5 := by simp [hd4]
    rw [← hl, List.drop_left]
  · refine ⟨"999", "AP2.X", by decide, by decide⟩

/-- Concrete run of `C10_bonds_split_and_year_rows`: a 4-digit year marker
strips cleanly, the assembled rows carry at most the two year keys, and a
marker-prefixed bonds key really lands, stripped, in the previous-year
row. -/
theorem C10_bonds_split_and_year_rows_witness :
    ("2023" : String).length = 4
      ∧ pyDropChars 5 ("2023" ++ "_" ++ "AP2.SWEDISHGOV.ACTUALALLOCATION.NONE.A.1@AP2")
          = "AP2.SWEDISHGOV.ACTUALALLOCATION.NONE.A.1@AP2"
      ∧ List.Sublist
          ((extract_all_sections 2024
              (fun s => if s == "bonds" then [("2023_X", (1 : Int))] else [])).map Prod.fst)
          [2024 - 1, 2024]
      ∧ (∃ pd', (2024 - 1, pd') ∈ extract_all_sections 2024
            (fun s => if s == "bonds" then [("2023_X", (1 : Int))] else [])
          ∧ pyDropChars 5 "2023_X" ∈ pd'.map Prod.fst) :=
  ⟨rfl,
    (C10_bonds_split_and_year_rows 2024
      (fun s => if s == "bonds" then [("2023_X", (1 : Int))] else [])).2.2.2.2.1
      "2023" "AP2.SWEDISHGOV.ACTUALALLOCATION.NONE.A.1@AP2" rfl,
    (C10_bonds_split_and_year_rows 2024
      (fun s => if s == "bonds" then [("2023_X", (1 : Int))] else [])).1,
    (C10_bonds_split_and_year_rows 2024
      (fun s => if s == "bonds" then [("2023_X", (1 : Int))] else [])).2.2.2.1
      "2023_X" (by decide) (by decide)⟩

end AP2
